import Mathlib

/-!
# CHIP-8 machine: shallow embedding of `chip8.h` / `chip8.cpp`

The class `Chip8` becomes a record of its data members.  Arrays are total
functions on `Nat`; every array access of the source goes through an explicit
bounds test, and an access outside the array (undefined behaviour in C++) is
reported as a `Fault`.  Fixed-width integers are `Nat` with explicit
truncation at every narrowing store.
-/

namespace Chip8Emu

/-! ## Constants of `chip8.h` -/

def ROM_START_ADDRESS : Nat := 0x200
def FONTSET_START_ADDRESS : Nat := 0x50
def FONTSET_SIZE : Nat := 80
def VIDEO_WIDTH : Nat := 64
def VIDEO_HEIGHT : Nat := 32

/-- The glyph table `fontset` of `chip8.h`. -/
def fontset : List Nat :=
  [0xF0, 0x90, 0x90, 0x90, 0xF0,
   0x20, 0x60, 0x20, 0x20, 0x70,
   0xF0, 0x10, 0xF0, 0x80, 0xF0,
   0xF0, 0x10, 0xF0, 0x10, 0xF0,
   0x90, 0x90, 0xF0, 0x10, 0x10,
   0xF0, 0x80, 0xF0, 0x10, 0xF0,
   0xF0, 0x80, 0xF0, 0x90, 0xF0,
   0xF0, 0x10, 0x20, 0x40, 0x40,
   0xF0, 0x90, 0xF0, 0x90, 0xF0,
   0xF0, 0x90, 0xF0, 0x10, 0xF0,
   0xF0, 0x90, 0xF0, 0x90, 0x90,
   0xE0, 0x90, 0xE0, 0x90, 0xE0,
   0xF0, 0x80, 0x80, 0x80, 0xF0,
   0xE0, 0x90, 0x90, 0x90, 0xE0,
   0xF0, 0x80, 0xF0, 0x80, 0xF0,
   0xF0, 0x80, 0xF0, 0x80, 0x80]

/-! ## Machine integers -/

/-- Store into a `uint8_t`. -/
def wrap8 (n : Nat) : Nat := n % 256

/-- Store into a `uint16_t`. -/
def wrap16 (n : Nat) : Nat := n % 65536

/-- Store of the `int` difference `a - b` into a `uint8_t`. -/
def sub8 (a b : Nat) : Nat := (((a : Int) - (b : Int)) % 256).toNat

/-- Store of the `int` difference `a - b` into a `uint16_t`. -/
def sub16 (a b : Nat) : Nat := (((a : Int) - (b : Int)) % 65536).toNat

/-! ## Machine state -/

/-- Which array an out-of-range access went to. -/
inductive Fault where
  | memoryBounds
  | videoBounds
  | stackBounds
  | keypadBounds
  | tableBounds
  deriving DecidableEq

/-- Data members of `class Chip8`.  `randGen`/`randPos` stand for the state of
the random engine: the bytes it will deliver and how many were drawn. -/
structure Chip8 where
  keypad : Nat → Nat
  video : Nat → Nat
  registers : Nat → Nat
  index : Nat
  pc : Nat
  stack : Nat → Nat
  sp : Nat
  opcode : Nat
  memory : Nat → Nat
  delayTimer : Nat
  soundTimer : Nat
  randGen : Nat → Nat
  randPos : Nat

/-- Every member holds a value of its declared C++ type. -/
structure Chip8.WF (s : Chip8) : Prop where
  keypad : ∀ i, i < 16 → s.keypad i < 256
  video : ∀ i, i < 2048 → s.video i < 4294967296
  registers : ∀ i, i < 16 → s.registers i < 256
  index : s.index < 65536
  pc : s.pc < 65536
  stack : ∀ i, i < 16 → s.stack i < 65536
  sp : s.sp < 256
  opcode : s.opcode < 65536
  memory : ∀ i, i < 4096 → s.memory i < 256
  delayTimer : s.delayTimer < 256
  soundTimer : s.soundTimer < 256

/-- Assignment `a[i] = v`. -/
def setAt (a : Nat → Nat) (i v : Nat) : Nat → Nat :=
  fun j => if j = i then v else a j

/-- Loop `for (i = start; i < start + count; ++i) body`, stopping at a fault. -/
def forLoop (body : Nat → Chip8 → Except Fault Chip8) :
    Nat → Nat → Chip8 → Except Fault Chip8
  | _, 0, s => .ok s
  | i, count + 1, s =>
    match body i s with
    | .ok s1 => forLoop body (i + 1) count s1
    | .error e => .error e

/-! ## Operand fields of the opcode -/

/-- Field `(opcode & 0x0F00u) >> 8u`. -/
def opX (opcode : Nat) : Nat := (opcode &&& 0x0F00) >>> 8

/-- Field `(opcode & 0x00F0u) >> 4u`. -/
def opY (opcode : Nat) : Nat := (opcode &&& 0x00F0) >>> 4

/-- Field `opcode & 0x000Fu`. -/
def opN (opcode : Nat) : Nat := opcode &&& 0x000F

/-- Field `opcode & 0x00FFu`. -/
def opKK (opcode : Nat) : Nat := opcode &&& 0x00FF

/-- Field `opcode & 0x0FFFu`. -/
def opNNN (opcode : Nat) : Nat := opcode &&& 0x0FFF

/-! ## Instruction handlers of `chip8.cpp` -/

/-- Handler `OP_NULL`: does nothing. -/
def OP_NULL (s : Chip8) : Chip8 := s

/-- Handler `OP_00E0`: `memset(video, 0, sizeof(video))`. -/
def OP_00E0 (s : Chip8) : Chip8 :=
  { s with video := fun j => if j < VIDEO_WIDTH * VIDEO_HEIGHT then 0 else s.video j }

/-- Handler `OP_00EE`: `sp -= 1; pc = stack[sp]`. -/
def OP_00EE (s : Chip8) : Except Fault Chip8 :=
  let sp1 := sub8 s.sp 1
  if sp1 < 16 then .ok { s with sp := sp1, pc := s.stack sp1 }
  else .error .stackBounds

/-- Handler `OP_1nnn`: `pc = opcode & 0x0FFFu`. -/
def OP_1nnn (s : Chip8) : Chip8 :=
  { s with pc := opNNN s.opcode }

/-- Handler `OP_2nnn`: `stack[sp] = pc; sp += 1; pc = opcode & 0xFFFu`. -/
def OP_2nnn (s : Chip8) : Except Fault Chip8 :=
  if s.sp < 16 then
    .ok { s with stack := setAt s.stack s.sp s.pc, sp := wrap8 (s.sp + 1), pc := opNNN s.opcode }
  else .error .stackBounds

/-- Handler `OP_3xkk`: skip when `registers[x] == byte`. -/
def OP_3xkk (s : Chip8) : Chip8 :=
  let x := opX s.opcode
  let byte := wrap8 (opKK s.opcode)
  if s.registers x = byte then { s with pc := wrap16 (s.pc + 2) } else s

/-- Handler `OP_4xkk`: skip when `registers[x] != byte`. -/
def OP_4xkk (s : Chip8) : Chip8 :=
  let x := opX s.opcode
  let byte := wrap8 (opKK s.opcode)
  if s.registers x ≠ byte then { s with pc := wrap16 (s.pc + 2) } else s

/-- Handler `OP_5xy0`: skip when `registers[x] == registers[y]`. -/
def OP_5xy0 (s : Chip8) : Chip8 :=
  let x := opX s.opcode
  let y := opY s.opcode
  if s.registers x = s.registers y then { s with pc := wrap16 (s.pc + 2) } else s

/-- Handler `OP_6xkk`: `registers[x] = byte`. -/
def OP_6xkk (s : Chip8) : Chip8 :=
  let x := opX s.opcode
  let byte := wrap8 (opKK s.opcode)
  { s with registers := setAt s.registers x byte }

/-- Handler `OP_7xkk`: `registers[x] += byte`. -/
def OP_7xkk (s : Chip8) : Chip8 :=
  let x := opX s.opcode
  let byte := wrap8 (opKK s.opcode)
  { s with registers := setAt s.registers x (wrap8 (s.registers x + byte)) }

/-- Handler `OP_8xy0`: `registers[x] = registers[y]`. -/
def OP_8xy0 (s : Chip8) : Chip8 :=
  let x := opX s.opcode
  let y := opY s.opcode
  { s with registers := setAt s.registers x (s.registers y) }

/-- Handler `OP_8xy1`: `registers[x] |= registers[y]`. -/
def OP_8xy1 (s : Chip8) : Chip8 :=
  let x := opX s.opcode
  let y := opY s.opcode
  { s with registers := setAt s.registers x (wrap8 (s.registers x ||| s.registers y)) }

/-- Handler `OP_8xy2`: `registers[x] &= registers[y]`. -/
def OP_8xy2 (s : Chip8) : Chip8 :=
  let x := opX s.opcode
  let y := opY s.opcode
  { s with registers := setAt s.registers x (wrap8 (s.registers x &&& s.registers y)) }

/-- Handler `OP_8xy3`: `registers[x] ^= registers[y]`. -/
def OP_8xy3 (s : Chip8) : Chip8 :=
  let x := opX s.opcode
  let y := opY s.opcode
  { s with registers := setAt s.registers x (wrap8 (s.registers x ^^^ s.registers y)) }

/-- Handler `OP_8xy4`: the sum is taken first, then VF is written, then
`registers[x]`. -/
def OP_8xy4 (s : Chip8) : Chip8 :=
  let x := opX s.opcode
  let y := opY s.opcode
  let sum := wrap16 (s.registers x + s.registers y)
  let r1 := if sum > 255 then setAt s.registers 0xF 1 else setAt s.registers 0xF 0
  { s with registers := setAt r1 x (wrap8 (sum &&& 0xFF)) }

/-- Handler `OP_8xy5`: VF is written first; `registers[x] -= registers[y]` then
reads both operands from the updated register file. -/
def OP_8xy5 (s : Chip8) : Chip8 :=
  let x := opX s.opcode
  let y := opY s.opcode
  let r1 := if s.registers x > s.registers y then setAt s.registers 0xF 1
            else setAt s.registers 0xF 0
  { s with registers := setAt r1 x (sub8 (r1 x) (r1 y)) }

/-- Handler `OP_8xy6`: `registers[0x0F] = registers[x] & 0x1u; registers[x] >>= 1`. -/
def OP_8xy6 (s : Chip8) : Chip8 :=
  let x := opX s.opcode
  let r1 := setAt s.registers 0xF (wrap8 (s.registers x &&& 0x1))
  { s with registers := setAt r1 x (wrap8 (r1 x >>> 1)) }

/-- Handler `OP_8xy7`: VF is written first; `registers[x] = registers[y] -
registers[x]` then reads both operands from the updated register file. -/
def OP_8xy7 (s : Chip8) : Chip8 :=
  let x := opX s.opcode
  let y := opY s.opcode
  let r1 := if s.registers y > s.registers x then setAt s.registers 0xF 1
            else setAt s.registers 0xF 0
  { s with registers := setAt r1 x (sub8 (r1 y) (r1 x)) }

/-- Handler `OP_8xyE`: `registers[0x0F] = (registers[x] & 0x80u) >> 7u;
registers[x] <<= 1`. -/
def OP_8xyE (s : Chip8) : Chip8 :=
  let x := opX s.opcode
  let r1 := setAt s.registers 0xF (wrap8 ((s.registers x &&& 0x80) >>> 7))
  { s with registers := setAt r1 x (wrap8 (r1 x <<< 1)) }

/-- Handler `OP_9xy0`: skip when `registers[x] != registers[y]`. -/
def OP_9xy0 (s : Chip8) : Chip8 :=
  let x := opX s.opcode
  let y := opY s.opcode
  if s.registers x ≠ s.registers y then { s with pc := wrap16 (s.pc + 2) } else s

/-- Handler `OP_Annn`: `index = opcode & 0x0FFFu`. -/
def OP_Annn (s : Chip8) : Chip8 :=
  { s with index := opNNN s.opcode }

/-- Handler `OP_Bnnn`: `pc = registers[0] + (opcode & 0x0FFFu)`. -/
def OP_Bnnn (s : Chip8) : Chip8 :=
  { s with pc := wrap16 (s.registers 0 + opNNN s.opcode) }

/-- Handler `OP_Cxkk`: `registers[x] = randByte(randGen) & kk`. -/
def OP_Cxkk (s : Chip8) : Chip8 :=
  let x := opX s.opcode
  let kk := wrap8 (opKK s.opcode)
  let r := wrap8 (s.randGen s.randPos)
  { s with registers := setAt s.registers x (r &&& kk), randPos := s.randPos + 1 }

/-- Innermost body of the loops of `OP_Dxyn`: one sprite bit at (`row`, `col`).
The cell `screenPixel` is read and written only when the sprite bit is set, so
the cell index is tested there. -/
def drawPixel (xPos yPos row spriteByte col : Nat) (s : Chip8) : Except Fault Chip8 :=
  let spritePixel := wrap8 (spriteByte &&& (0x80 >>> col))
  let cell := (yPos + row) * VIDEO_WIDTH + (xPos + col)
  if spritePixel ≠ 0 then
    if cell < VIDEO_WIDTH * VIDEO_HEIGHT then
      let r1 := if s.video cell = 0xFFFFFFFF then setAt s.registers 0xF 1 else s.registers
      .ok { s with registers := r1, video := setAt s.video cell (s.video cell ^^^ 0xFFFFFFFF) }
    else .error .videoBounds
  else .ok s

/-- Body of the outer loop of `OP_Dxyn`: one sprite row. -/
def drawRow (xPos yPos row : Nat) (s : Chip8) : Except Fault Chip8 :=
  if s.index + row < 4096 then
    let spriteByte := s.memory (s.index + row)
    forLoop (drawPixel xPos yPos row spriteByte) 0 8 s
  else .error .memoryBounds

/-- Handler `OP_Dxyn`: the anchor is taken from the registers before VF is
cleared; no coordinate is wrapped or clipped after that. -/
def OP_Dxyn (s : Chip8) : Except Fault Chip8 :=
  let Vx := opX s.opcode
  let Vy := opY s.opcode
  let height := wrap8 (opN s.opcode)
  let xPos := wrap8 (s.registers Vx % VIDEO_WIDTH)
  let yPos := wrap8 (s.registers Vy % VIDEO_HEIGHT)
  let s0 := { s with registers := setAt s.registers 0xF 0 }
  forLoop (drawRow xPos yPos) 0 height s0

/-- Handler `OP_Ex9E`: skip when `keypad[registers[x]]` is non-zero. -/
def OP_Ex9E (s : Chip8) : Except Fault Chip8 :=
  let x := opX s.opcode
  let key := s.registers x
  if key < 16 then
    if s.keypad key ≠ 0 then .ok { s with pc := wrap16 (s.pc + 2) } else .ok s
  else .error .keypadBounds

/-- Handler `OP_ExA1`: skip when `keypad[registers[x]]` is zero. -/
def OP_ExA1 (s : Chip8) : Except Fault Chip8 :=
  let x := opX s.opcode
  let key := s.registers x
  if key < 16 then
    if s.keypad key = 0 then .ok { s with pc := wrap16 (s.pc + 2) } else .ok s
  else .error .keypadBounds

/-- Handler `OP_Fx07`: `registers[x] = delayTimer`. -/
def OP_Fx07 (s : Chip8) : Chip8 :=
  let x := opX s.opcode
  { s with registers := setAt s.registers x s.delayTimer }

/-- Handler `OP_Fx0A`: the sixteen-way `if`/`else if` chain over the keypad. -/
def OP_Fx0A (s : Chip8) : Chip8 :=
  let Vx := opX s.opcode
  if s.keypad 0 ≠ 0 then { s with registers := setAt s.registers Vx 0 }
  else if s.keypad 1 ≠ 0 then { s with registers := setAt s.registers Vx 1 }
  else if s.keypad 2 ≠ 0 then { s with registers := setAt s.registers Vx 2 }
  else if s.keypad 3 ≠ 0 then { s with registers := setAt s.registers Vx 3 }
  else if s.keypad 4 ≠ 0 then { s with registers := setAt s.registers Vx 4 }
  else if s.keypad 5 ≠ 0 then { s with registers := setAt s.registers Vx 5 }
  else if s.keypad 6 ≠ 0 then { s with registers := setAt s.registers Vx 6 }
  else if s.keypad 7 ≠ 0 then { s with registers := setAt s.registers Vx 7 }
  else if s.keypad 8 ≠ 0 then { s with registers := setAt s.registers Vx 8 }
  else if s.keypad 9 ≠ 0 then { s with registers := setAt s.registers Vx 9 }
  else if s.keypad 10 ≠ 0 then { s with registers := setAt s.registers Vx 10 }
  else if s.keypad 11 ≠ 0 then { s with registers := setAt s.registers Vx 11 }
  else if s.keypad 12 ≠ 0 then { s with registers := setAt s.registers Vx 12 }
  else if s.keypad 13 ≠ 0 then { s with registers := setAt s.registers Vx 13 }
  else if s.keypad 14 ≠ 0 then { s with registers := setAt s.registers Vx 14 }
  else if s.keypad 15 ≠ 0 then { s with registers := setAt s.registers Vx 15 }
  else { s with pc := sub16 s.pc 2 }

/-- Handler `OP_Fx15`: `delayTimer = registers[x]`. -/
def OP_Fx15 (s : Chip8) : Chip8 :=
  let x := opX s.opcode
  { s with delayTimer := s.registers x }

/-- Handler `OP_Fx18`: `soundTimer = registers[x]`. -/
def OP_Fx18 (s : Chip8) : Chip8 :=
  let x := opX s.opcode
  { s with soundTimer := s.registers x }

/-- Handler `OP_Fx1E`: `index += registers[x]`. -/
def OP_Fx1E (s : Chip8) : Chip8 :=
  let x := opX s.opcode
  { s with index := wrap16 (s.index + s.registers x) }

/-- Handler `OP_Fx29`: `index = FONTSET_START_ADDRESS + (digit * 5)`. -/
def OP_Fx29 (s : Chip8) : Chip8 :=
  let x := opX s.opcode
  let digit := s.registers x
  { s with index := wrap16 (FONTSET_START_ADDRESS + digit * 5) }

/-- Handler `OP_Fx33`: three stores, ones first, then tens, then hundreds. -/
def OP_Fx33 (s : Chip8) : Except Fault Chip8 :=
  let x := opX s.opcode
  let value := s.registers x
  if s.index + 2 < 4096 then
    let m1 := setAt s.memory (s.index + 2) (wrap8 (value % 10))
    let value1 := wrap8 (value / 10)
    if s.index + 1 < 4096 then
      let m2 := setAt m1 (s.index + 1) (wrap8 (value1 % 10))
      let value2 := wrap8 (value1 / 10)
      if s.index < 4096 then
        .ok { s with memory := setAt m2 s.index (wrap8 (value2 % 10)) }
      else .error .memoryBounds
    else .error .memoryBounds
  else .error .memoryBounds

/-- Handler `OP_Fx55`: `for (i = 0; i < x; ++i) memory[index + i] = registers[i]`. -/
def OP_Fx55 (s : Chip8) : Except Fault Chip8 :=
  let x := opX s.opcode
  forLoop (fun i s1 =>
    if s1.index + i < 4096 then
      .ok { s1 with memory := setAt s1.memory (s1.index + i) (s1.registers i) }
    else .error .memoryBounds) 0 x s

/-- Handler `OP_Fx65`: `for (i = 0; i < x; ++i) registers[i] = memory[index + i]`. -/
def OP_Fx65 (s : Chip8) : Except Fault Chip8 :=
  let x := opX s.opcode
  forLoop (fun i s1 =>
    if s1.index + i < 4096 then
      .ok { s1 with registers := setAt s1.registers i (s1.memory (s1.index + i)) }
    else .error .memoryBounds) 0 x s

/-! ## Dispatch tables

The second-stage arrays are `table0[0xE + 1]`, `table8[0xE + 1]`,
`tableE[0xE + 1]` and `tableF[0x65 + 1]`; the constructor fills them with
`OP_NULL` and then assigns the handlers.  An index past the last entry is an
access outside the array. -/

/-- Second stage `Table0`: `table0[opcode & 0x000Fu]`. -/
def Table0 (s : Chip8) : Except Fault Chip8 :=
  let i := s.opcode &&& 0x000F
  if i = 0x0 then .ok (OP_00E0 s)
  else if i = 0xE then OP_00EE s
  else if i ≤ 0xE then .ok (OP_NULL s)
  else .error .tableBounds

/-- Second stage `Table8`: `table8[opcode & 0x000Fu]`. -/
def Table8 (s : Chip8) : Except Fault Chip8 :=
  let i := s.opcode &&& 0x000F
  if i = 0x0 then .ok (OP_8xy0 s)
  else if i = 0x1 then .ok (OP_8xy1 s)
  else if i = 0x2 then .ok (OP_8xy2 s)
  else if i = 0x3 then .ok (OP_8xy3 s)
  else if i = 0x4 then .ok (OP_8xy4 s)
  else if i = 0x5 then .ok (OP_8xy5 s)
  else if i = 0x6 then .ok (OP_8xy6 s)
  else if i = 0x7 then .ok (OP_8xy7 s)
  else if i = 0xE then .ok (OP_8xyE s)
  else if i ≤ 0xE then .ok (OP_NULL s)
  else .error .tableBounds

/-- Second stage `TableE`: `tableE[opcode & 0x000Fu]`. -/
def TableE (s : Chip8) : Except Fault Chip8 :=
  let i := s.opcode &&& 0x000F
  if i = 0x1 then OP_ExA1 s
  else if i = 0xE then OP_Ex9E s
  else if i ≤ 0xE then .ok (OP_NULL s)
  else .error .tableBounds

/-- Second stage `TableF`: `tableF[opcode & 0x00FFu]`. -/
def TableF (s : Chip8) : Except Fault Chip8 :=
  let i := s.opcode &&& 0x00FF
  if i = 0x07 then .ok (OP_Fx07 s)
  else if i = 0x0A then .ok (OP_Fx0A s)
  else if i = 0x15 then .ok (OP_Fx15 s)
  else if i = 0x18 then .ok (OP_Fx18 s)
  else if i = 0x1E then .ok (OP_Fx1E s)
  else if i = 0x29 then .ok (OP_Fx29 s)
  else if i = 0x33 then OP_Fx33 s
  else if i = 0x55 then OP_Fx55 s
  else if i = 0x65 then OP_Fx65 s
  else if i ≤ 0x65 then .ok (OP_NULL s)
  else .error .tableBounds

/-- First stage: `table[(opcode & 0xF000u) >> 12u]`, sixteen entries. -/
def table (s : Chip8) : Except Fault Chip8 :=
  let i := (s.opcode &&& 0xF000) >>> 12
  if i = 0x0 then Table0 s
  else if i = 0x1 then .ok (OP_1nnn s)
  else if i = 0x2 then OP_2nnn s
  else if i = 0x3 then .ok (OP_3xkk s)
  else if i = 0x4 then .ok (OP_4xkk s)
  else if i = 0x5 then .ok (OP_5xy0 s)
  else if i = 0x6 then .ok (OP_6xkk s)
  else if i = 0x7 then .ok (OP_7xkk s)
  else if i = 0x8 then Table8 s
  else if i = 0x9 then .ok (OP_9xy0 s)
  else if i = 0xA then .ok (OP_Annn s)
  else if i = 0xB then .ok (OP_Bnnn s)
  else if i = 0xC then .ok (OP_Cxkk s)
  else if i = 0xD then OP_Dxyn s
  else if i = 0xE then TableE s
  else if i = 0xF then TableF s
  else .error .tableBounds

/-! ## Cycle driver, construction, ROM load -/

/-- The two timer decrements at the end of `cycle`. -/
def decayTimers (s : Chip8) : Chip8 :=
  let s1 := if s.delayTimer > 0 then { s with delayTimer := sub8 s.delayTimer 1 } else s
  if s1.soundTimer > 0 then { s1 with soundTimer := sub8 s1.soundTimer 1 } else s1

/-- Instruction word at `pc`: `(memory[pc] << 8u) | memory[pc + 1]`. -/
def fetch (s : Chip8) : Nat :=
  wrap16 ((s.memory s.pc <<< 8) ||| s.memory (s.pc + 1))

/-- Member `cycle`: fetch, `pc += 2`, dispatch, timers. -/
def cycle (s : Chip8) : Except Fault Chip8 :=
  if s.pc < 4096 ∧ s.pc + 1 < 4096 then
    let s1 := { s with opcode := fetch s, pc := wrap16 (s.pc + 2) }
    match table s1 with
    | .ok s2 => .ok (decayTimers s2)
    | .error e => .error e
  else .error .memoryBounds

/-- Repeated calls `cycle(); cycle(); ...`, `n` of them. -/
def runCycles : Nat → Chip8 → Except Fault Chip8
  | 0, s => .ok s
  | n + 1, s =>
    match cycle s with
    | .ok s1 => runCycles n s1
    | .error e => .error e

/-- Constructor `Chip8::Chip8`.  Its initialiser list covers `video`,
`registers`, `index`, `pc`, `stack`, `sp`, `opcode` and `memory`; `keypad`,
`delayTimer` and `soundTimer` are not in it, so their initial contents are
whatever the storage held and are taken as arguments, as is the byte sequence
of the time-seeded random engine. -/
def Chip8_ctor (keypad0 : Nat → Nat) (delayTimer0 soundTimer0 : Nat)
    (randGen0 : Nat → Nat) : Chip8 :=
  { keypad := keypad0
    video := fun _ => 0
    registers := fun _ => 0
    index := 0
    pc := ROM_START_ADDRESS
    stack := fun _ => 0
    sp := 0
    opcode := 0
    memory := fun a =>
      if FONTSET_START_ADDRESS ≤ a ∧ a < FONTSET_START_ADDRESS + FONTSET_SIZE then
        fontset.getD (a - FONTSET_START_ADDRESS) 0
      else 0
    delayTimer := delayTimer0
    soundTimer := soundTimer0
    randGen := randGen0
    randPos := 0 }

/-- Member `load_rom`, with the file contents as the list `rom`: the bytes go
to `memory + ROM_START_ADDRESS`. -/
def load_rom (rom : List Nat) (s : Chip8) : Except Fault Chip8 :=
  if ROM_START_ADDRESS + rom.length ≤ 4096 then
    .ok { s with memory := fun a =>
            if ROM_START_ADDRESS ≤ a ∧ a < ROM_START_ADDRESS + rom.length then
              wrap8 (rom.getD (a - ROM_START_ADDRESS) 0)
            else s.memory a }
  else .error .memoryBounds

/-! ## Concrete machine states -/

/-- Machine state with every member zero. -/
def zeroState : Chip8 :=
  { keypad := fun _ => 0
    video := fun _ => 0
    registers := fun _ => 0
    index := 0
    pc := 0
    stack := fun _ => 0
    sp := 0
    opcode := 0
    memory := fun _ => 0
    delayTimer := 0
    soundTimer := 0
    randGen := fun _ => 0
    randPos := 0 }

/-- Opcode `8014` with V0 = 250 and V1 = 10. -/
def addState : Chip8 :=
  { zeroState with opcode := 0x8014, registers := setAt (setAt (fun _ => 0) 0 250) 1 10 }

/-- Opcode `8014` with V0 = 10 and V1 = 250. -/
def addStateSwapped : Chip8 :=
  { zeroState with opcode := 0x8014, registers := setAt (setAt (fun _ => 0) 0 10) 1 250 }

/-- Opcode `8F14` (x = 0xF, y = 1) with VF = 131 and V1 = 4; the handlers read
only the x and y fields. -/
def vfState : Chip8 :=
  { zeroState with opcode := 0x8F14, registers := setAt (setAt (fun _ => 0) 0xF 131) 1 4 }

/-- Opcode `80F5` (x = 0, y = 0xF) with V0 = 5 and VF = 10. -/
def subState : Chip8 :=
  { zeroState with opcode := 0x80F5, registers := setAt (setAt (fun _ => 0) 0 5) 0xF 10 }

/-- Opcode `8015` (x = 0, y = 1) with V0 = 5 and V1 = 10. -/
def subStatePlain : Chip8 :=
  { zeroState with opcode := 0x8015, registers := setAt (setAt (fun _ => 0) 0 5) 1 10 }

/-- Opcode `F233` (x = 2) with V2 = 205 and I = 0x300. -/
def bcdState : Chip8 :=
  { zeroState with opcode := 0xF233, index := 0x300, registers := setAt (fun _ => 0) 2 205 }

/-- Opcode `F155` (x = 1) with V0 = 7, V1 = 9 and I = 0x300. -/
def storeState : Chip8 :=
  { zeroState with opcode := 0xF155, index := 0x300,
                   registers := setAt (setAt (fun _ => 0) 0 7) 1 9 }

/-- Test step between `Fx55` and `Fx65`: registers V0..Vx are set to zero. -/
def clearRegisters (x : Nat) (s : Chip8) : Chip8 :=
  { s with registers := fun i => if i ≤ x then 0 else s.registers i }

/-- The sequence `Fx55`, clear V0..Vx, `Fx65` on one opcode word (both handlers
read only its x field). -/
def storeClearLoad (s : Chip8) : Except Fault Chip8 :=
  match OP_Fx55 s with
  | .ok s1 => OP_Fx65 (clearRegisters (opX s.opcode) s1)
  | .error e => .error e

/-- Program `00 E0` at 0x200 with PC = 0x200 and a lit framebuffer. -/
def clsState : Chip8 :=
  { zeroState with pc := 0x200, memory := setAt (fun _ => 0) 0x201 0xE0,
                   video := fun _ => 0xFFFFFFFF }

/-- Program `F3 0A` at 0x200 with PC = 0x200 and no key down. -/
def waitState : Chip8 :=
  { zeroState with pc := 0x200, memory := setAt (setAt (fun _ => 0) 0x200 0xF3) 0x201 0x0A }

/-- Program `F3 0A` at 0x200 with PC = 0x200 and keys 5 and 9 down. -/
def keyState : Chip8 :=
  { waitState with keypad := setAt (setAt (fun _ => 0) 9 1) 5 1 }

/-- Program `12 00` (jump to 0x200) at 0x200 with PC = 0x200 and both timers 5. -/
def timerState : Chip8 :=
  { zeroState with pc := 0x200, memory := setAt (fun _ => 0) 0x200 0x12,
                   delayTimer := 5, soundTimer := 5 }

/-- The word is an `Fx15` or an `Fx18`: first-stage index 0xF and second-stage
index 0x15 or 0x18. -/
def isTimerWrite (opcode : Nat) : Prop :=
  (opcode &&& 0xF000) >>> 12 = 0xF ∧ (opcode &&& 0x00FF = 0x15 ∨ opcode &&& 0x00FF = 0x18)

instance (opcode : Nat) : Decidable (isTimerWrite opcode) := by
  unfold isTimerWrite
  exact inferInstance

/-- Toggle applied to cell `j` by the sprite bit at (`row`, `col`): all ones when
the bit is set and its cell is `j`, zero otherwise. -/
def pixelMask (xPos yPos row spriteByte col j : Nat) : Nat :=
  if wrap8 (spriteByte &&& (0x80 >>> col)) ≠ 0
      ∧ (yPos + row) * VIDEO_WIDTH + (xPos + col) = j then 0xFFFFFFFF else 0

/-- Combined toggle of the first `n` columns of one sprite row. -/
def colsMask (xPos yPos row spriteByte : Nat) : Nat → Nat → Nat
  | 0, _ => 0
  | n + 1, j => colsMask xPos yPos row spriteByte n j ^^^ pixelMask xPos yPos row spriteByte n j

/-- Combined toggle of the first `n` rows of the sprite at `mem[idx ...]`. -/
def rowsMask (xPos yPos : Nat) (mem : Nat → Nat) (idx : Nat) : Nat → Nat → Nat
  | 0, _ => 0
  | n + 1, j => rowsMask xPos yPos mem idx n j ^^^ colsMask xPos yPos n (mem (idx + n)) 8 j

/-- State `t` comes from `s` by drawing: only VF and the framebuffer may differ,
and every cell `j` was XOR-ed with `mask j`. -/
def drawnFrom (s : Chip8) (mask : Nat → Nat) (t : Chip8) : Prop :=
  t.keypad = s.keypad ∧ t.index = s.index ∧ t.pc = s.pc ∧ t.stack = s.stack ∧ t.sp = s.sp
  ∧ t.opcode = s.opcode ∧ t.memory = s.memory ∧ t.delayTimer = s.delayTimer
  ∧ t.soundTimer = s.soundTimer ∧ t.randGen = s.randGen ∧ t.randPos = s.randPos
  ∧ (∀ r, r ≠ 0xF → t.registers r = s.registers r)
  ∧ (∀ j, t.video j = s.video j ^^^ mask j)

/-- Opcode `D012` (x = 0, y = 1, n = 2) with V0 = 3, V1 = 4, I = 0x300, sprite
bytes F0 90 and one lit cell under the sprite. -/
def drawState : Chip8 :=
  { zeroState with opcode := 0xD012, index := 0x300,
                   registers := setAt (setAt (fun _ => 0) 0 3) 1 4,
                   memory := setAt (setAt (fun _ => 0) 0x300 0xF0) 0x301 0x90,
                   video := setAt (fun _ => 0) (4 * 64 + 3) 0xFFFFFFFF }

/-- Neither timer differs between `s` and `s1`. -/
def sameTimers (s s1 : Chip8) : Prop :=
  s1.delayTimer = s.delayTimer ∧ s1.soundTimer = s.soundTimer

/-- Program of the single word `hi lo` at 0x200 with PC = 0x200, sound timer 3
and V2 = 9. -/
def wordState (hi lo : Nat) : Chip8 :=
  { zeroState with pc := 0x200, memory := setAt (setAt (fun _ => 0) 0x200 hi) 0x201 lo,
                   soundTimer := 3, registers := setAt (fun _ => 0) 2 9 }

/-- The word has no handler but its second-stage index lies inside the
second-stage array: first-stage index 0x0, 0x8 or 0xE with low nibble at most 0xE,
or first-stage index 0xF with low byte at most 0x65, and the index is none of the
assigned ones. -/
def unassignedInTable (opcode : Nat) : Prop :=
  ((opcode &&& 0xF000) >>> 12 = 0x0 ∧ opcode &&& 0x000F ≠ 0x0 ∧ opcode &&& 0x000F ≠ 0xE
      ∧ opcode &&& 0x000F ≤ 0xE)
  ∨ ((opcode &&& 0xF000) >>> 12 = 0x8 ∧ 0x8 ≤ opcode &&& 0x000F ∧ opcode &&& 0x000F ≤ 0xD)
  ∨ ((opcode &&& 0xF000) >>> 12 = 0xE ∧ opcode &&& 0x000F ≠ 0x1 ∧ opcode &&& 0x000F ≠ 0xE
      ∧ opcode &&& 0x000F ≤ 0xE)
  ∨ ((opcode &&& 0xF000) >>> 12 = 0xF ∧ opcode &&& 0x00FF ≠ 0x07 ∧ opcode &&& 0x00FF ≠ 0x0A
      ∧ opcode &&& 0x00FF ≠ 0x15 ∧ opcode &&& 0x00FF ≠ 0x18 ∧ opcode &&& 0x00FF ≠ 0x1E
      ∧ opcode &&& 0x00FF ≠ 0x29 ∧ opcode &&& 0x00FF ≠ 0x33 ∧ opcode &&& 0x00FF ≠ 0x55
      ∧ opcode &&& 0x00FF ≠ 0x65 ∧ opcode &&& 0x00FF ≤ 0x65)

/-- Opcode `8015` (x = 0, y = 1) with V0 = 7 and V1 = 7. -/
def equalState : Chip8 :=
  { zeroState with opcode := 0x8015, registers := setAt (setAt (fun _ => 0) 0 7) 1 7 }

/-- Program `F2 15` at 0x200 with PC = 0x200 and V2 = 9. -/
def delayWriteState : Chip8 := wordState 0xF2 0x15

/-- Program `22 04` at 0x200 (call 0x204) and `00 EE` at 0x204, PC = 0x200,
stack pointer 3. -/
def callState : Chip8 :=
  { zeroState with pc := 0x200, sp := 3,
                   memory := setAt (setAt (setAt (fun _ => 0) 0x200 0x22) 0x201 0x04) 0x205 0xEE }

/-- Opcode word with x = 2, y = 3, kk = 0x09; V2 = 9, V3 = 4, PC = 0x202, key 9
down. -/
def skipState : Chip8 :=
  { zeroState with pc := 0x202, opcode := 0x3209,
                   registers := setAt (setAt (fun _ => 0) 2 9) 3 4,
                   keypad := setAt (fun _ => 0) 9 1 }

/-- State `t` has the registers, I, memory, stack, stack pointer and framebuffer
of `s`. -/
def sameData (s t : Chip8) : Prop :=
  t.registers = s.registers ∧ t.index = s.index ∧ t.memory = s.memory ∧ t.stack = s.stack
  ∧ t.sp = s.sp ∧ t.video = s.video

/-- Of the two results, exactly one has PC advanced by 2 (as a 16-bit value) and
the other has the PC of `s`. -/
def oneSkips (s a b : Chip8) : Prop :=
  (a.pc = (s.pc + 2) % 65536 ∧ b.pc = s.pc) ∨ (a.pc = s.pc ∧ b.pc = (s.pc + 2) % 65536)

/-- Stack pointer and framebuffer of `s1` are those of `s`. -/
def sameSpVideo (s s1 : Chip8) : Prop :=
  s1.sp = s.sp ∧ s1.video = s.video

/-- Framebuffer cell value that is all zero bits or all one bits. -/
def cellBinary (v : Nat) : Prop := v = 0 ∨ v = 0xFFFFFFFF

/-- Program `D0 11` at 0x200 (draw 1 row at (V0, V1) = (0, 0)) with I = 0x200, so
the sprite byte is D0, PC = 0x200 and cell 1 lit. -/
def drawCycleState : Chip8 :=
  { zeroState with pc := 0x200, index := 0x200,
                   memory := setAt (setAt (fun _ => 0) 0x200 0xD0) 0x201 0x11,
                   video := setAt (fun _ => 0) 1 0xFFFFFFFF }

/-- Linear framebuffer index of sprite position (`row`, `col`) for the anchor
(`xPos`, `yPos`), as computed in `OP_Dxyn`. -/
def cellOf (xPos yPos row col : Nat) : Nat := (yPos + row) * 64 + (xPos + col)

/-- The test `spritePixel != 0` of `OP_Dxyn` for column `col` of `spriteByte`. -/
def bitSet (spriteByte col : Nat) : Prop := wrap8 (spriteByte &&& (0x80 >>> col)) ≠ 0

instance (spriteByte col : Nat) : Decidable (bitSet spriteByte col) := by
  unfold bitSet
  exact inferInstance

/-- Some set bit among the first `n` columns of the row lies on a cell that is
all ones in `video0`. -/
def colsHit (video0 : Nat → Nat) (xPos yPos row spriteByte n : Nat) : Prop :=
  ∃ c, c < n ∧ bitSet spriteByte c ∧ video0 (cellOf xPos yPos row c) = 0xFFFFFFFF

/-- Some set bit among the first `n` rows of the sprite lies on a cell that is
all ones in `video0`. -/
def rowsHit (video0 : Nat → Nat) (xPos yPos : Nat) (mem : Nat → Nat) (idx n : Nat) : Prop :=
  ∃ r, r < n ∧ colsHit video0 xPos yPos r (mem (idx + r)) 8

/-- Opcode `D012` (x = 0, y = 1, n = 2) with V0 = 3, V1 = 4, I = 0x300, sprite
bytes F0 90, the cell under the top-left sprite bit lit and VF = 7. -/
def spriteState : Chip8 :=
  { drawState with registers := setAt (setAt (setAt (fun _ => 0) 0 3) 1 4) 0xF 7 }

/-- After the first `n` columns of a row started in `t0`: the cells carry the
column toggles and VF is 1 if a set bit met a lit cell, else as in `t0`. -/
def colsInv (t0 : Chip8) (xPos yPos row spriteByte n : Nat) (t : Chip8) : Prop :=
  drawnFrom t0 (colsMask xPos yPos row spriteByte n) t
  ∧ (colsHit t0.video xPos yPos row spriteByte n → t.registers 0xF = 1)
  ∧ (¬ colsHit t0.video xPos yPos row spriteByte n → t.registers 0xF = t0.registers 0xF)

/-- After the first `n` rows of a draw started in `s0`: the cells carry the row
toggles and VF is 1 if a set bit met a lit cell, else as in `s0`. -/
def rowsInv (s0 : Chip8) (xPos yPos n : Nat) (t : Chip8) : Prop :=
  drawnFrom s0 (rowsMask xPos yPos s0.memory s0.index n) t
  ∧ (rowsHit s0.video xPos yPos s0.memory s0.index n → t.registers 0xF = 1)
  ∧ (¬ rowsHit s0.video xPos yPos s0.memory s0.index n → t.registers 0xF = s0.registers 0xF)

/-- Opcode `D011` (x = 0, y = 1, n = 1) with V0 = 60, V1 = 10, I = 0x300 and the
sprite byte 01: the one set bit is column 7, past the right edge. -/
def spillState : Chip8 :=
  { zeroState with opcode := 0xD011, index := 0x300,
                   registers := setAt (setAt (fun _ => 0) 0 60) 1 10,
                   memory := setAt (fun _ => 0) 0x300 0x01 }

/-! ## Basic facts -/

@[simp] theorem setAt_same (a : Nat → Nat) (i v : Nat) : setAt a i v i = v := by
  simp [setAt]

theorem setAt_ne (a : Nat → Nat) {i j : Nat} (v : Nat) (h : j ≠ i) : setAt a i v j = a j := by
  simp [setAt, h]

theorem opX_lt (op : Nat) : opX op < 16 := by
  unfold opX
  have h : op &&& 0x0F00 ≤ 0x0F00 := Nat.and_le_right
  rw [Nat.shiftRight_eq_div_pow]
  omega

theorem opY_lt (op : Nat) : opY op < 16 := by
  unfold opY
  have h : op &&& 0x00F0 ≤ 0x00F0 := Nat.and_le_right
  rw [Nat.shiftRight_eq_div_pow]
  omega

theorem opN_lt (op : Nat) : opN op < 16 := by
  unfold opN
  have h : op &&& 0x000F ≤ 0x000F := Nat.and_le_right
  omega

theorem and_255 (n : Nat) : n &&& 0xFF = n % 256 :=
  Nat.and_pow_two_sub_one_eq_mod n 8

theorem sub8_of_le {a b : Nat} (h : b ≤ a) (ha : a < 256) : sub8 a b = a - b := by
  unfold sub8
  omega

theorem sub8_of_lt {a b : Nat} (h : a < b) (hb : b ≤ 256) : sub8 a b = a + 256 - b := by
  unfold sub8
  omega

theorem sub8_lt (a b : Nat) : sub8 a b < 256 := by
  unfold sub8
  omega

/-! ## Register arithmetic -/

/-- Claim C1: for a well-formed state and x ≠ 0xF, the 8xy4 handler leaves
Vx = (Vx + Vy) mod 256 and VF = 1 exactly when the sum exceeds 255; a state with
the two operand values swapped gets the same Vx and VF. -/
theorem OP_8xy4_sum_and_carry (s : Chip8) (hwf : s.WF) (hx : opX s.opcode ≠ 0xF) :
    (OP_8xy4 s).registers (opX s.opcode)
        = (s.registers (opX s.opcode) + s.registers (opY s.opcode)) % 256
    ∧ (OP_8xy4 s).registers 0xF
        = (if s.registers (opX s.opcode) + s.registers (opY s.opcode) > 255 then 1 else 0)
    ∧ ∀ t : Chip8, t.WF → t.opcode = s.opcode →
        t.registers (opX s.opcode) = s.registers (opY s.opcode) →
        t.registers (opY s.opcode) = s.registers (opX s.opcode) →
        (OP_8xy4 t).registers (opX s.opcode) = (OP_8xy4 s).registers (opX s.opcode)
        ∧ (OP_8xy4 t).registers 0xF = (OP_8xy4 s).registers 0xF := by
  have hvx := hwf.registers _ (opX_lt s.opcode)
  have hvy := hwf.registers _ (opY_lt s.opcode)
  have key : ∀ u : Chip8, u.registers (opX u.opcode) < 256 → u.registers (opY u.opcode) < 256 →
      opX u.opcode ≠ 0xF →
      (OP_8xy4 u).registers (opX u.opcode)
          = (u.registers (opX u.opcode) + u.registers (opY u.opcode)) % 256
      ∧ (OP_8xy4 u).registers 0xF
          = (if u.registers (opX u.opcode) + u.registers (opY u.opcode) > 255 then 1 else 0) := by
    intro u h1 h2 h3
    have hs : wrap16 (u.registers (opX u.opcode) + u.registers (opY u.opcode))
        = u.registers (opX u.opcode) + u.registers (opY u.opcode) := by
      unfold wrap16; omega
    constructor
    · simp only [OP_8xy4, setAt_same, hs, and_255, wrap8]
      omega
    · simp only [OP_8xy4, hs]
      rw [setAt_ne _ _ (Ne.symm h3)]
      split <;> simp
  refine ⟨(key s hvx hvy hx).1, (key s hvx hvy hx).2, ?_⟩
  intro t htwf hop hxy hyx
  have h1 := key t (htwf.registers _ (opX_lt _)) (htwf.registers _ (opY_lt _)) (by rw [hop]; exact hx)
  rw [hop, hxy, hyx] at h1
  rw [h1.1, h1.2, (key s hvx hvy hx).1, (key s hvx hvy hx).2, Nat.add_comm]
  exact ⟨rfl, rfl⟩

theorem OP_8xy4_sum_and_carry_witness :
    addState.WF ∧ opX addState.opcode ≠ 0xF
    ∧ (OP_8xy4 addState).registers 0 = 4 ∧ (OP_8xy4 addState).registers 0xF = 1
    ∧ (OP_8xy4 addStateSwapped).registers 0 = 4
    ∧ (OP_8xy4 addStateSwapped).registers 0xF = 1 := by
  have hwf : addState.WF := by
    constructor <;> intros <;> simp [addState, zeroState, setAt] <;> split_ifs <;> omega
  have hwf2 : addStateSwapped.WF := by
    constructor <;> intros <;> simp [addStateSwapped, zeroState, setAt] <;> split_ifs <;> omega
  have h := OP_8xy4_sum_and_carry addState hwf (by decide)
  have h2 := h.2.2 addStateSwapped hwf2 rfl (by decide) (by decide)
  have e1 : opX addState.opcode = 0 := by decide
  have e2 : opY addState.opcode = 1 := by decide
  have r0 : addState.registers 0 = 250 := by decide
  have r1 : addState.registers 1 = 10 := by decide
  rw [e1, e2, r0, r1] at h
  rw [e1] at h2
  refine ⟨hwf, by decide, h.1, h.2.1, ?_, ?_⟩
  · rw [h2.1]; exact h.1
  · rw [h2.2]; exact h.2.1

/-- Claim C2, evaluated at x = 0xF: with VF = 131, V1 = 4 and opcode fields
x = 0xF, y = 1, the write to Vx lands on VF after the flag was stored, so VF ends
as 135 after 8xy4, 253 after 8xy5, 4 after 8xy7 and 2 after 8xyE: neither 0
nor 1. -/
theorem arith_VF_overwritten_when_x_is_F :
    opX vfState.opcode = 0xF ∧ opY vfState.opcode = 1
    ∧ vfState.registers 0xF = 131 ∧ vfState.registers 1 = 4
    ∧ (OP_8xy4 vfState).registers 0xF = 135
    ∧ (OP_8xy5 vfState).registers 0xF = 253
    ∧ (OP_8xy7 vfState).registers 0xF = 4
    ∧ (OP_8xyE vfState).registers 0xF = 2 := by
  decide

/-- For x ≠ 0xF each of the handlers 8xy4, 8xy5, 8xy6, 8xy7 and 8xyE leaves VF
equal to 0 or to 1. -/
theorem arith_VF_is_flag (s : Chip8) (hx : opX s.opcode ≠ 0xF) :
    ((OP_8xy4 s).registers 0xF = 0 ∨ (OP_8xy4 s).registers 0xF = 1)
    ∧ ((OP_8xy5 s).registers 0xF = 0 ∨ (OP_8xy5 s).registers 0xF = 1)
    ∧ ((OP_8xy6 s).registers 0xF = 0 ∨ (OP_8xy6 s).registers 0xF = 1)
    ∧ ((OP_8xy7 s).registers 0xF = 0 ∨ (OP_8xy7 s).registers 0xF = 1)
    ∧ ((OP_8xyE s).registers 0xF = 0 ∨ (OP_8xyE s).registers 0xF = 1) := by
  have hne : (0xF : Nat) ≠ opX s.opcode := Ne.symm hx
  have h1 : s.registers (opX s.opcode) &&& 0x1 ≤ 0x1 := Nat.and_le_right
  have h2 : s.registers (opX s.opcode) &&& 0x80 ≤ 0x80 := Nat.and_le_right
  refine ⟨?_, ?_, ?_, ?_, ?_⟩
  · simp only [OP_8xy4]; rw [setAt_ne _ _ hne]; split <;> simp
  · simp only [OP_8xy5]; rw [setAt_ne _ _ hne]; split <;> simp
  · simp only [OP_8xy6]; rw [setAt_ne _ _ hne, setAt_same]; unfold wrap8; omega
  · simp only [OP_8xy7]; rw [setAt_ne _ _ hne]; split <;> simp
  · simp only [OP_8xyE]; rw [setAt_ne _ _ hne, setAt_same, Nat.shiftRight_eq_div_pow]
    unfold wrap8; omega

theorem arith_VF_is_flag_witness :
    opX addState.opcode ≠ 0xF ∧ (OP_8xy4 addState).registers 0xF = 1
    ∧ ((OP_8xy5 addState).registers 0xF = 0 ∨ (OP_8xy5 addState).registers 0xF = 1) :=
  ⟨by decide, by decide, (arith_VF_is_flag addState (by decide)).2.1⟩

/-- Claim C3, evaluated at y = 0xF: with V0 = 5, VF = 10 and opcode fields x = 0,
y = 0xF, the 8xy5 handler stores the flag 0 in VF and then subtracts that new VF,
leaving V0 = 5, whereas (5 - 10) mod 256 = 251. -/
theorem OP_8xy5_subtracts_new_VF_when_y_is_F :
    opX subState.opcode = 0 ∧ opY subState.opcode = 0xF
    ∧ subState.registers 0 = 5 ∧ subState.registers 0xF = 10
    ∧ (OP_8xy5 subState).registers 0 = 5
    ∧ (OP_8xy5 subState).registers 0xF = 0
    ∧ sub8 5 10 = 251 := by
  decide

/-- For x ≠ 0xF and y ≠ 0xF the 8xy5 handler leaves Vx = (Vx - Vy) mod 256 and
VF = 1 exactly when Vx > Vy. -/
theorem OP_8xy5_difference (s : Chip8) (hx : opX s.opcode ≠ 0xF) (hy : opY s.opcode ≠ 0xF) :
    (OP_8xy5 s).registers (opX s.opcode)
        = sub8 (s.registers (opX s.opcode)) (s.registers (opY s.opcode))
    ∧ (OP_8xy5 s).registers 0xF
        = (if s.registers (opX s.opcode) > s.registers (opY s.opcode) then 1 else 0) := by
  have hnx : (0xF : Nat) ≠ opX s.opcode := Ne.symm hx
  constructor
  · simp only [OP_8xy5, setAt_same]
    split <;> rw [setAt_ne _ _ hx, setAt_ne _ _ hy]
  · simp only [OP_8xy5]; rw [setAt_ne _ _ hnx]; split <;> simp

theorem OP_8xy5_difference_witness :
    opX subStatePlain.opcode ≠ 0xF ∧ opY subStatePlain.opcode ≠ 0xF
    ∧ (OP_8xy5 subStatePlain).registers 0 = 251
    ∧ (OP_8xy5 subStatePlain).registers 0xF = 0 := by
  have h := OP_8xy5_difference subStatePlain (by decide) (by decide)
  exact ⟨by decide, by decide, h.1.trans (by decide), h.2.trans (by decide)⟩


/-! ## Memory transfers -/

/-- Claim C6: for a well-formed state with I + 2 < 4096 the Fx33 handler returns
and leaves memory[I] = v / 100, memory[I+1] = (v / 10) mod 10 and
memory[I+2] = v mod 10 for v = Vx; the three bytes are decimal digits whose
weighted sum is v. -/
theorem OP_Fx33_stores_decimal_digits (s : Chip8) (hwf : s.WF) (hI : s.index + 2 < 4096) :
    ∃ s1, OP_Fx33 s = .ok s1
      ∧ s1.memory s.index = s.registers (opX s.opcode) / 100
      ∧ s1.memory (s.index + 1) = (s.registers (opX s.opcode) / 10) % 10
      ∧ s1.memory (s.index + 2) = s.registers (opX s.opcode) % 10
      ∧ 100 * s1.memory s.index + 10 * s1.memory (s.index + 1) + s1.memory (s.index + 2)
          = s.registers (opX s.opcode)
      ∧ s1.memory s.index ≤ 9 ∧ s1.memory (s.index + 1) ≤ 9 ∧ s1.memory (s.index + 2) ≤ 9 := by
  have hv := hwf.registers _ (opX_lt s.opcode)
  have h1 : s.index + 1 < 4096 := by omega
  have h0 : s.index < 4096 := by omega
  have hok : OP_Fx33 s = .ok { s with memory :=
      (setAt (setAt (setAt s.memory (s.index + 2) (wrap8 (s.registers (opX s.opcode) % 10)))
        (s.index + 1) (wrap8 (wrap8 (s.registers (opX s.opcode) / 10) % 10)))
        s.index (wrap8 (wrap8 (wrap8 (s.registers (opX s.opcode) / 10) / 10) % 10))) } := by
    simp only [OP_Fx33, hI, h1, h0, if_true]
  refine ⟨_, hok, ?_⟩
  have e1 : ¬ (s.index + 1 = s.index) := by omega
  have e2 : ¬ (s.index + 2 = s.index) := by omega
  have e3 : ¬ (s.index + 2 = s.index + 1) := by omega
  simp only [setAt, wrap8, e1, e2, e3, if_true, if_false]
  omega

theorem OP_Fx33_stores_decimal_digits_witness :
    bcdState.WF ∧ bcdState.index + 2 < 4096 ∧ bcdState.registers (opX bcdState.opcode) = 205
    ∧ ∃ s1, OP_Fx33 bcdState = .ok s1
      ∧ s1.memory 0x300 = 2 ∧ s1.memory 0x301 = 0 ∧ s1.memory 0x302 = 5 := by
  have hwf : bcdState.WF := by
    constructor <;> intros <;> simp [bcdState, zeroState, setAt] <;> split_ifs <;> omega
  obtain ⟨s1, h, a, b, c, _⟩ := OP_Fx33_stores_decimal_digits bcdState hwf (by decide)
  have hv : bcdState.registers (opX bcdState.opcode) = 205 := by decide
  have hi : bcdState.index = 0x300 := rfl
  rw [hv, hi] at a b c
  exact ⟨hwf, by decide, hv, s1, h, a, b, c⟩

/-- Claim C5, evaluated at x = 1: with V0 = 7, V1 = 9 and I = 0x300 the loops of
Fx55 and Fx65 stop before register x, so after store, clear and load V0 is back
to 7 but V1 is still 0, not 9, and memory[I+1] was never written. -/
theorem Fx55_Fx65_skip_Vx :
    opX storeState.opcode = 1 ∧ storeState.registers 0 = 7 ∧ storeState.registers 1 = 9
    ∧ storeState.index + 1 < 4096
    ∧ ∃ s1 s2, OP_Fx55 storeState = .ok s1 ∧ storeClearLoad storeState = .ok s2
      ∧ s1.memory 0x300 = 7 ∧ s1.memory 0x301 = 0
      ∧ s2.registers 0 = 7 ∧ s2.registers 1 = 0 :=
  ⟨by decide, by decide, by decide, by decide, _, _, rfl, rfl,
   by decide, by decide, by decide, by decide⟩


/-! ## Cycle driver -/

theorem decayTimers_frame (s : Chip8) :
    (decayTimers s).keypad = s.keypad ∧ (decayTimers s).video = s.video
    ∧ (decayTimers s).registers = s.registers ∧ (decayTimers s).index = s.index
    ∧ (decayTimers s).pc = s.pc ∧ (decayTimers s).stack = s.stack
    ∧ (decayTimers s).sp = s.sp ∧ (decayTimers s).opcode = s.opcode
    ∧ (decayTimers s).memory = s.memory := by
  by_cases h1 : s.delayTimer > 0 <;> by_cases h2 : s.soundTimer > 0 <;>
    simp [decayTimers, h1, h2]

theorem cycle_of_table {s s2 : Chip8} (hpc : s.pc + 1 < 4096)
    (h : table { s with opcode := fetch s, pc := wrap16 (s.pc + 2) } = .ok s2) :
    cycle s = .ok (decayTimers s2) := by
  have h0 : s.pc < 4096 := by omega
  simp only [cycle, h0, hpc, and_self, if_true, h]

/-- Claim C10: with PC = 0x200 and the bytes 00 E0 at 0x200, one cycle returns,
leaves all 2048 framebuffer cells 0 and PC = 0x202, and leaves the registers, I,
the stack, the stack pointer and the memory as they were. -/
theorem cycle_clear_screen (s : Chip8) (hpc : s.pc = 0x200) (h0 : s.memory 0x200 = 0x00)
    (h1 : s.memory 0x201 = 0xE0) :
    ∃ s1, cycle s = .ok s1
      ∧ (∀ i, i < 2048 → s1.video i = 0) ∧ s1.pc = 0x202
      ∧ s1.registers = s.registers ∧ s1.index = s.index ∧ s1.stack = s.stack
      ∧ s1.sp = s.sp ∧ s1.memory = s.memory := by
  have hf : fetch s = 0x00E0 := by
    simp only [fetch, hpc, h0, h1]; decide
  have ht : table { s with opcode := fetch s, pc := wrap16 (s.pc + 2) }
      = .ok (OP_00E0 { s with opcode := fetch s, pc := wrap16 (s.pc + 2) }) := by
    simp only [table, Table0, hf]
    rfl
  have hc := cycle_of_table (by omega) ht
  obtain ⟨_, e2, e3, e4, e5, e6, e7, _, e9⟩ :=
    decayTimers_frame (OP_00E0 { s with opcode := fetch s, pc := wrap16 (s.pc + 2) })
  refine ⟨_, hc, ?_, ?_, ?_, ?_, ?_, ?_, ?_⟩
  · intro i hi
    rw [e2]
    simp only [OP_00E0, VIDEO_WIDTH, VIDEO_HEIGHT]
    simp [hi]
  · rw [e5]; simp only [OP_00E0, hpc]; decide
  · rw [e3]; rfl
  · rw [e4]; rfl
  · rw [e6]; rfl
  · rw [e7]; rfl
  · rw [e9]; rfl

theorem cycle_clear_screen_witness :
    clsState.pc = 0x200 ∧ clsState.memory 0x200 = 0x00 ∧ clsState.memory 0x201 = 0xE0
    ∧ clsState.video 7 = 0xFFFFFFFF
    ∧ ∃ s1, cycle clsState = .ok s1 ∧ (∀ i, i < 2048 → s1.video i = 0) ∧ s1.pc = 0x202 := by
  obtain ⟨s1, h, hv, hp, _⟩ := cycle_clear_screen clsState rfl (by decide) (by decide)
  exact ⟨rfl, by decide, by decide, by decide, s1, h, hv, hp⟩


theorem word_Fx0A (x : Nat) (hx : x < 16) :
    (wrap16 (((0xF0 + x) <<< 8) ||| 0x0A) &&& 0xF000) >>> 12 = 0xF
    ∧ wrap16 (((0xF0 + x) <<< 8) ||| 0x0A) &&& 0x00FF = 0x0A
    ∧ opX (wrap16 (((0xF0 + x) <<< 8) ||| 0x0A)) = x := by
  interval_cases x <;> decide

theorem table_Fx0A (s : Chip8) (x : Nat) (hx : x < 16)
    (hop : s.opcode = wrap16 (((0xF0 + x) <<< 8) ||| 0x0A)) :
    table s = .ok (OP_Fx0A s) := by
  obtain ⟨a, b, _⟩ := word_Fx0A x hx
  rw [← hop] at a b
  simp only [table, TableF, a, b]
  rfl

theorem cycle_Fx0A (s : Chip8) (x : Nat) (hx : x < 16) (hpc : s.pc ≤ 4094)
    (hhi : s.memory s.pc = 0xF0 + x) (hlo : s.memory (s.pc + 1) = 0x0A) :
    cycle s = .ok (decayTimers (OP_Fx0A { s with opcode := fetch s, pc := wrap16 (s.pc + 2) }))
    ∧ opX (fetch s) = x := by
  have hf : fetch s = wrap16 (((0xF0 + x) <<< 8) ||| 0x0A) := by
    simp only [fetch, hhi, hlo]
  refine ⟨cycle_of_table (by omega) (table_Fx0A _ x hx hf), ?_⟩
  rw [hf]
  exact (word_Fx0A x hx).2.2

/-- Claim C8: when PC ≤ 4094 points at the bytes Fx 0A and some keypad entry
among 0..15 is non-zero, one cycle returns with PC advanced by 2 and Vx equal to
the smallest index whose keypad entry is non-zero; no other register changes. -/
theorem cycle_Fx0A_key_capture (s : Chip8) (x : Nat) (hx : x < 16) (hpc : s.pc ≤ 4094)
    (hhi : s.memory s.pc = 0xF0 + x) (hlo : s.memory (s.pc + 1) = 0x0A)
    (hkey : ∃ j, j < 16 ∧ s.keypad j ≠ 0) :
    ∃ s1 k, cycle s = .ok s1 ∧ k < 16 ∧ s.keypad k ≠ 0 ∧ (∀ j, j < k → s.keypad j = 0)
      ∧ s1.pc = s.pc + 2 ∧ s1.registers x = k
      ∧ ∀ r, r ≠ x → s1.registers r = s.registers r := by
  obtain ⟨hc, hxx⟩ := cycle_Fx0A s x hx hpc hhi hlo
  have hex : ∃ j, s.keypad j ≠ 0 := by
    obtain ⟨j, _, hj⟩ := hkey
    exact ⟨j, hj⟩
  have hk16 : Nat.find hex < 16 := by
    obtain ⟨j, hj16, hj⟩ := hkey
    exact lt_of_le_of_lt (Nat.find_min' hex hj) hj16
  have hkd : s.keypad (Nat.find hex) ≠ 0 := Nat.find_spec hex
  have hmin : ∀ j, j < Nat.find hex → s.keypad j = 0 := by
    intro j hj
    exact not_not.mp (Nat.find_min hex hj)
  generalize Nat.find hex = k at hk16 hkd hmin
  obtain ⟨_, _, e3, _, e5, _⟩ :=
    decayTimers_frame (OP_Fx0A { s with opcode := fetch s, pc := wrap16 (s.pc + 2) })
  have hw : wrap16 (s.pc + 2) = s.pc + 2 := by unfold wrap16; omega
  refine ⟨_, k, hc, hk16, hkd, hmin, ?_, ?_, ?_⟩
  · rw [e5]
    interval_cases k <;> simp [OP_Fx0A, hmin, hkd, hw]
  · rw [e3]
    interval_cases k <;> simp [OP_Fx0A, hmin, hkd, hxx]
  · intro r hr
    rw [e3]
    interval_cases k <;> simp [OP_Fx0A, hmin, hkd, hxx, setAt, hr]

theorem cycle_Fx0A_key_capture_witness :
    keyState.pc ≤ 4094 ∧ keyState.memory keyState.pc = 0xF0 + 3
    ∧ keyState.memory (keyState.pc + 1) = 0x0A
    ∧ keyState.keypad 5 ≠ 0 ∧ keyState.keypad 9 ≠ 0
    ∧ ∃ s1, cycle keyState = .ok s1 ∧ s1.pc = 0x202 ∧ s1.registers 3 = 5 := by
  obtain ⟨s1, k, h, hk, hkd, hmin, hp, hr, _⟩ :=
    cycle_Fx0A_key_capture keyState 3 (by decide) (by decide) (by decide) (by decide)
      ⟨5, by decide, by decide⟩
  have hk5 : k = 5 := by
    have h5 : ¬ (5 < k) := fun hlt => absurd (hmin 5 hlt) (by decide)
    interval_cases k <;> first | rfl | exact absurd hkd (by decide)
  rw [hk5] at hr
  exact ⟨by decide, by decide, by decide, by decide, by decide, s1, h, hp, hr⟩


theorem cycle_Fx0A_no_key (s : Chip8) (x : Nat) (hx : x < 16) (hpc : s.pc ≤ 4094)
    (hhi : s.memory s.pc = 0xF0 + x) (hlo : s.memory (s.pc + 1) = 0x0A)
    (hkeys : ∀ j, j < 16 → s.keypad j = 0) :
    ∃ s1, cycle s = .ok s1 ∧ s1.pc = s.pc ∧ s1.registers = s.registers
      ∧ s1.memory = s.memory ∧ s1.keypad = s.keypad := by
  obtain ⟨hc, _⟩ := cycle_Fx0A s x hx hpc hhi hlo
  obtain ⟨e1, _, e3, _, e5, _, _, _, e9⟩ :=
    decayTimers_frame (OP_Fx0A { s with opcode := fetch s, pc := wrap16 (s.pc + 2) })
  have hw : sub16 (wrap16 (s.pc + 2)) 2 = s.pc := by unfold wrap16 sub16; omega
  have hf : OP_Fx0A { s with opcode := fetch s, pc := wrap16 (s.pc + 2) }
      = { s with opcode := fetch s, pc := s.pc } := by
    simp [OP_Fx0A, hkeys, hw]
  refine ⟨_, hc, ?_, ?_, ?_, ?_⟩
  · rw [e5, hf]
  · rw [e3, hf]
  · rw [e9, hf]
  · rw [e1, hf]

/-- Claim C7: when PC ≤ 4094 points at the bytes Fx 0A and keypad entries 0..15
are all 0, any number k of successive cycles returns, with PC at its initial
value and every register V0..VF at its initial value. -/
theorem cycle_Fx0A_stall (k : Nat) (s : Chip8) (x : Nat) (hx : x < 16) (hpc : s.pc ≤ 4094)
    (hhi : s.memory s.pc = 0xF0 + x) (hlo : s.memory (s.pc + 1) = 0x0A)
    (hkeys : ∀ j, j < 16 → s.keypad j = 0) :
    ∃ s1, runCycles k s = .ok s1 ∧ s1.pc = s.pc
      ∧ (∀ r, r < 16 → s1.registers r = s.registers r)
      ∧ s1.memory = s.memory ∧ s1.keypad = s.keypad := by
  induction k generalizing s with
  | zero => exact ⟨s, rfl, rfl, fun _ _ => rfl, rfl, rfl⟩
  | succ n ih =>
    obtain ⟨s1, hc, hp, hr, hm, hk⟩ := cycle_Fx0A_no_key s x hx hpc hhi hlo hkeys
    obtain ⟨s2, hrun, hp2, hr2, hm2, hk2⟩ :=
      ih s1 (by rw [hp]; exact hpc) (by rw [hm, hp]; exact hhi) (by rw [hm, hp]; exact hlo)
        (by rw [hk]; exact hkeys)
    refine ⟨s2, ?_, hp2.trans hp, ?_, hm2.trans hm, hk2.trans hk⟩
    · simp only [runCycles, hc, hrun]
    · intro r hr16
      rw [hr2 r hr16, hr]

theorem cycle_Fx0A_stall_witness :
    waitState.pc ≤ 4094 ∧ waitState.memory waitState.pc = 0xF0 + 3
    ∧ waitState.memory (waitState.pc + 1) = 0x0A
    ∧ (∀ j, j < 16 → waitState.keypad j = 0)
    ∧ ∃ s1, runCycles 4 waitState = .ok s1 ∧ s1.pc = 0x200
      ∧ ∀ r, r < 16 → s1.registers r = 0 := by
  obtain ⟨s1, h, hp, hr, _⟩ :=
    cycle_Fx0A_stall 4 waitState 3 (by decide) (by decide) (by decide) (by decide)
      (fun _ _ => rfl)
  exact ⟨by decide, by decide, by decide, fun _ _ => rfl, s1, h, hp, hr⟩


/-! ## Loops -/

theorem forLoop_indexed (P : Nat → Chip8 → Prop) (body : Nat → Chip8 → Except Fault Chip8)
    (hbody : ∀ i s s1, P i s → body i s = .ok s1 → P (i + 1) s1) :
    ∀ (n i : Nat) (s s1 : Chip8), P i s → forLoop body i n s = .ok s1 → P (i + n) s1 := by
  intro n
  induction n with
  | zero =>
    intro i s s1 hP h
    simp only [forLoop, Except.ok.injEq] at h
    rw [← h]; exact hP
  | succ n ih =>
    intro i s s1 hP h
    simp only [forLoop] at h
    cases hb : body i s with
    | error e => rw [hb] at h; simp at h
    | ok s2 =>
      rw [hb] at h
      have h2 := ih (i + 1) s2 s1 (hbody i s s2 hP hb) h
      have e : i + 1 + n = i + (n + 1) := by omega
      rw [e] at h2
      exact h2

theorem forLoop_total (P : Chip8 → Prop) (body : Nat → Chip8 → Except Fault Chip8) (bound : Nat)
    (hbody : ∀ i s, i < bound → P s → ∃ s1, body i s = .ok s1 ∧ P s1) :
    ∀ (n i : Nat) (s : Chip8), i + n ≤ bound → P s →
      ∃ s1, forLoop body i n s = .ok s1 ∧ P s1 := by
  intro n
  induction n with
  | zero =>
    intro i s _ hP
    exact ⟨s, rfl, hP⟩
  | succ n ih =>
    intro i s hle hP
    obtain ⟨s2, hb, hP2⟩ := hbody i s (by omega) hP
    obtain ⟨s1, h1, hP1⟩ := ih (i + 1) s2 (by omega) hP2
    exact ⟨s1, by simp only [forLoop, hb, h1], hP1⟩

/-! ## Sprite drawing -/

theorem drawnFrom_start (s : Chip8) (mask : Nat → Nat) (h : ∀ j, mask j = 0) :
    drawnFrom s mask s := by
  refine ⟨rfl, rfl, rfl, rfl, rfl, rfl, rfl, rfl, rfl, rfl, rfl, fun _ _ => rfl, ?_⟩
  intro j
  rw [h j, Nat.xor_zero]

theorem drawnFrom_step {s t u : Chip8} {m m1 m2 : Nat → Nat} (h1 : drawnFrom s m t)
    (h2 : drawnFrom t m1 u) (hm : ∀ j, m2 j = m j ^^^ m1 j) : drawnFrom s m2 u := by
  obtain ⟨a1, a2, a3, a4, a5, a6, a7, a8, a9, a10, a11, a12, a13⟩ := h1
  obtain ⟨b1, b2, b3, b4, b5, b6, b7, b8, b9, b10, b11, b12, b13⟩ := h2
  refine ⟨b1.trans a1, b2.trans a2, b3.trans a3, b4.trans a4, b5.trans a5, b6.trans a6,
    b7.trans a7, b8.trans a8, b9.trans a9, b10.trans a10, b11.trans a11, ?_, ?_⟩
  · intro r hr
    rw [b12 r hr, a12 r hr]
  · intro j
    rw [b13 j, a13 j, hm j, Nat.xor_assoc]

theorem drawPixel_drawn (xPos yPos row b col : Nat) (t t1 : Chip8)
    (h : drawPixel xPos yPos row b col t = .ok t1) :
    drawnFrom t (pixelMask xPos yPos row b col) t1 := by
  simp only [drawPixel] at h
  split_ifs at h with hbit hcell hlit
  · simp only [Except.ok.injEq] at h
    rw [← h]
    refine ⟨rfl, rfl, rfl, rfl, rfl, rfl, rfl, rfl, rfl, rfl, rfl, ?_, ?_⟩
    · intro r hr
      exact setAt_ne _ _ hr
    · intro j
      by_cases hj : (yPos + row) * VIDEO_WIDTH + (xPos + col) = j
      · simp [pixelMask, hbit, hj, setAt]
      · have hj2 : j ≠ (yPos + row) * VIDEO_WIDTH + (xPos + col) := fun e => hj e.symm
        simp [pixelMask, hj, setAt, hj2]
  · simp only [Except.ok.injEq] at h
    rw [← h]
    refine ⟨rfl, rfl, rfl, rfl, rfl, rfl, rfl, rfl, rfl, rfl, rfl, fun _ _ => rfl, ?_⟩
    intro j
    by_cases hj : (yPos + row) * VIDEO_WIDTH + (xPos + col) = j
    · simp [pixelMask, hbit, hj, setAt]
    · have hj2 : j ≠ (yPos + row) * VIDEO_WIDTH + (xPos + col) := fun e => hj e.symm
      simp [pixelMask, hj, setAt, hj2]
  · simp only [Except.ok.injEq] at h
    rw [← h]
    apply drawnFrom_start
    intro j
    simp [pixelMask, hbit]


theorem drawCols_drawn (xPos yPos row b : Nat) (t t1 : Chip8)
    (h : forLoop (drawPixel xPos yPos row b) 0 8 t = .ok t1) :
    drawnFrom t (colsMask xPos yPos row b 8) t1 := by
  have key := forLoop_indexed (fun c u => drawnFrom t (colsMask xPos yPos row b c) u)
    (drawPixel xPos yPos row b)
    (fun c u u1 hP hb => drawnFrom_step hP (drawPixel_drawn xPos yPos row b c u u1 hb)
      (fun _ => rfl))
    8 0 t t1 (drawnFrom_start t _ (fun _ => rfl)) h
  exact key

theorem drawRow_drawn (xPos yPos row : Nat) (t t1 : Chip8)
    (h : drawRow xPos yPos row t = .ok t1) :
    drawnFrom t (colsMask xPos yPos row (t.memory (t.index + row)) 8) t1 := by
  simp only [drawRow] at h
  split_ifs at h
  exact drawCols_drawn xPos yPos row _ t t1 h

theorem drawRows_drawn (xPos yPos n : Nat) (t t1 : Chip8)
    (h : forLoop (drawRow xPos yPos) 0 n t = .ok t1) :
    drawnFrom t (rowsMask xPos yPos t.memory t.index n) t1 := by
  have key := forLoop_indexed
    (fun r u => drawnFrom t (rowsMask xPos yPos t.memory t.index r) u)
    (drawRow xPos yPos)
    (fun r u u1 hP hb => by
      have hd := drawRow_drawn xPos yPos r u u1 hb
      rw [hP.2.1, hP.2.2.2.2.2.2.1] at hd
      exact drawnFrom_step hP hd (fun _ => rfl))
    n 0 t t1 (drawnFrom_start t _ (fun _ => rfl)) h
  rw [Nat.zero_add] at key
  exact key

theorem wrap8_mod_width (a : Nat) : wrap8 (a % VIDEO_WIDTH) = a % 64 := by
  unfold wrap8 VIDEO_WIDTH; omega

theorem wrap8_mod_height (a : Nat) : wrap8 (a % VIDEO_HEIGHT) = a % 32 := by
  unfold wrap8 VIDEO_HEIGHT; omega

theorem wrap8_opN (op : Nat) : wrap8 (opN op) = opN op := by
  have h := opN_lt op
  unfold wrap8; omega

theorem OP_Dxyn_eq (s : Chip8) :
    OP_Dxyn s = forLoop (drawRow (s.registers (opX s.opcode) % 64)
      (s.registers (opY s.opcode) % 32)) 0 (opN s.opcode)
      { s with registers := setAt s.registers 0xF 0 } := by
  simp only [OP_Dxyn, wrap8_mod_width, wrap8_mod_height, wrap8_opN]

theorem OP_Dxyn_drawn (s s1 : Chip8) (h : OP_Dxyn s = .ok s1) :
    drawnFrom s (rowsMask (s.registers (opX s.opcode) % 64) (s.registers (opY s.opcode) % 32)
      s.memory s.index (opN s.opcode)) s1 := by
  rw [OP_Dxyn_eq] at h
  have hd := drawRows_drawn _ _ _ _ _ h
  have h0 : drawnFrom s (fun _ => 0) { s with registers := setAt s.registers 0xF 0 } :=
    ⟨rfl, rfl, rfl, rfl, rfl, rfl, rfl, rfl, rfl, rfl, rfl, fun r hr => setAt_ne _ _ hr,
      fun j => (Nat.xor_zero _).symm⟩
  exact drawnFrom_step h0 hd (fun j => (Nat.zero_xor _).symm)


theorem drawPixel_total (xPos yPos row b col : Nat) (t : Chip8)
    (hcell : wrap8 (b &&& (0x80 >>> col)) ≠ 0 →
      (yPos + row) * 64 + (xPos + col) < 2048) :
    ∃ t1, drawPixel xPos yPos row b col t = .ok t1 := by
  by_cases hbit : wrap8 (b &&& (0x80 >>> col)) ≠ 0
  · have hc : (yPos + row) * VIDEO_WIDTH + (xPos + col) < VIDEO_WIDTH * VIDEO_HEIGHT := hcell hbit
    apply Exists.intro
    simp only [drawPixel]
    rw [if_pos hbit, if_pos hc]
  · refine ⟨t, ?_⟩
    simp only [drawPixel]
    rw [if_neg hbit]

theorem drawRows_total (xPos yPos n : Nat) (t : Chip8)
    (hmem : ∀ row, row < n → t.index + row < 4096)
    (hcell : ∀ row col, row < n → col < 8 →
      wrap8 (t.memory (t.index + row) &&& (0x80 >>> col)) ≠ 0 →
      (yPos + row) * 64 + (xPos + col) < 2048) :
    ∃ t1, forLoop (drawRow xPos yPos) 0 n t = .ok t1 := by
  have key := forLoop_total (fun u => u.memory = t.memory ∧ u.index = t.index)
    (drawRow xPos yPos) n
    (fun row u hrow hP => by
      have hm : u.index + row < 4096 := by rw [hP.2]; exact hmem row hrow
      obtain ⟨u1, hu1, _⟩ := forLoop_total (fun _ => True)
        (drawPixel xPos yPos row (u.memory (u.index + row))) 8
        (fun col v hcol _ => by
          obtain ⟨v1, hv1⟩ := drawPixel_total xPos yPos row (u.memory (u.index + row)) col v
            (by rw [hP.1, hP.2]; exact hcell row col hrow hcol)
          exact ⟨v1, hv1, trivial⟩)
        8 0 u (by omega) trivial
      have hr : drawRow xPos yPos row u = .ok u1 := by
        simp only [drawRow, hm, if_true, hu1]
      have hd := drawRow_drawn xPos yPos row u u1 hr
      exact ⟨u1, hr, hd.2.2.2.2.2.2.1.trans hP.1, hd.2.1.trans hP.2⟩)
    n 0 t (by omega) ⟨rfl, rfl⟩
  obtain ⟨t1, h1, _⟩ := key
  exact ⟨t1, h1⟩

/-- Claim C4: when every sprite byte lies inside the memory and every cell the
sprite touches has index below 2048, the Dxyn handler returns; and when its
result state gives the same anchor (Vx mod 64, Vy mod 32), running the handler
again returns with every one of the 2048 framebuffer cells back at its value from
before the first draw.  I and the sprite bytes are the same for both draws
because the handler changes neither. -/
theorem OP_Dxyn_twice_restores_video (s : Chip8)
    (hmem : ∀ row, row < opN s.opcode → s.index + row < 4096)
    (hcell : ∀ row col, row < opN s.opcode → col < 8 →
      wrap8 (s.memory (s.index + row) &&& (0x80 >>> col)) ≠ 0 →
      (s.registers (opY s.opcode) % 32 + row) * 64
        + (s.registers (opX s.opcode) % 64 + col) < 2048) :
    ∃ s1, OP_Dxyn s = .ok s1
      ∧ s1.index = s.index ∧ s1.memory = s.memory
      ∧ (s1.registers (opX s.opcode) % 64 = s.registers (opX s.opcode) % 64
          ∧ s1.registers (opY s.opcode) % 32 = s.registers (opY s.opcode) % 32 →
        ∃ s2, OP_Dxyn s1 = .ok s2 ∧ ∀ i, i < 2048 → s2.video i = s.video i) := by
  obtain ⟨s1, h1⟩ := drawRows_total (s.registers (opX s.opcode) % 64)
    (s.registers (opY s.opcode) % 32) (opN s.opcode)
    { s with registers := setAt s.registers 0xF 0 } hmem hcell
  rw [← OP_Dxyn_eq] at h1
  have d1 := OP_Dxyn_drawn s s1 h1
  have hop : s1.opcode = s.opcode := d1.2.2.2.2.2.1
  have hidx : s1.index = s.index := d1.2.1
  have hmm : s1.memory = s.memory := d1.2.2.2.2.2.2.1
  refine ⟨s1, h1, hidx, hmm, ?_⟩
  rintro ⟨hax, hay⟩
  obtain ⟨s2, h2⟩ := drawRows_total (s1.registers (opX s1.opcode) % 64)
    (s1.registers (opY s1.opcode) % 32) (opN s1.opcode)
    { s1 with registers := setAt s1.registers 0xF 0 }
    (by
      intro row hrow
      show s1.index + row < 4096
      rw [hidx]; rw [hop] at hrow; exact hmem row hrow)
    (by
      intro row col hrow hcol hbit
      rw [hop] at hrow ⊢
      rw [hax, hay]
      have hbit2 : wrap8 (s.memory (s.index + row) &&& (0x80 >>> col)) ≠ 0 := by
        have e : s1.memory (s1.index + row) = s.memory (s.index + row) := by rw [hmm, hidx]
        rw [← e]; exact hbit
      exact hcell row col hrow hcol hbit2)
  rw [← OP_Dxyn_eq] at h2
  have d2 := OP_Dxyn_drawn s1 s2 h2
  refine ⟨s2, h2, ?_⟩
  intro i _
  have v2 := d2.2.2.2.2.2.2.2.2.2.2.2.2 i
  have v1 := d1.2.2.2.2.2.2.2.2.2.2.2.2 i
  rw [hop, hax, hay, hmm, hidx] at v2
  rw [v2, v1, Nat.xor_assoc, Nat.xor_self, Nat.xor_zero]


theorem OP_Dxyn_twice_restores_video_witness :
    opN drawState.opcode = 2 ∧ drawState.index + 1 < 4096
    ∧ drawState.video 259 = 0xFFFFFFFF ∧ drawState.video 260 = 0
    ∧ ∃ s1 s2, OP_Dxyn drawState = .ok s1 ∧ OP_Dxyn s1 = .ok s2
      ∧ s1.video 259 = 0 ∧ s1.video 260 = 0xFFFFFFFF ∧ s1.registers 0xF = 1
      ∧ ∀ i, i < 2048 → s2.video i = drawState.video i := by
  have hn : opN drawState.opcode = 2 := by decide
  have hy : drawState.registers (opY drawState.opcode) % 32 = 4 := by decide
  have hx : drawState.registers (opX drawState.opcode) % 64 = 3 := by decide
  obtain ⟨s1, h1, _, _, hagain⟩ := OP_Dxyn_twice_restores_video drawState
    (by
      intro row hrow
      rw [hn] at hrow
      show 0x300 + row < 4096
      omega)
    (by
      intro row col hrow hcol _
      rw [hn] at hrow
      rw [hx, hy]
      omega)
  have a259 : (match OP_Dxyn drawState with
      | .ok t => t.video 259 | .error _ => 1) = 0 := by decide
  have a260 : (match OP_Dxyn drawState with
      | .ok t => t.video 260 | .error _ => 1) = 0xFFFFFFFF := by decide
  have aVF : (match OP_Dxyn drawState with
      | .ok t => t.registers 0xF | .error _ => 0) = 1 := by decide
  have a0 : (match OP_Dxyn drawState with
      | .ok t => t.registers 0 | .error _ => 0) = 3 := by decide
  have a1 : (match OP_Dxyn drawState with
      | .ok t => t.registers 1 | .error _ => 0) = 4 := by decide
  rw [h1] at a259 a260 aVF a0 a1
  have ex : opX drawState.opcode = 0 := by decide
  have ey : opY drawState.opcode = 1 := by decide
  obtain ⟨s2, h2, hv⟩ := hagain (by
    rw [ex, ey]
    exact ⟨by rw [show s1.registers 0 = 3 from a0]; decide,
           by rw [show s1.registers 1 = 4 from a1]; decide⟩)
  exact ⟨hn, by decide, by decide, by decide, s1, s2, h1, h2, a259, a260, aVF, hv⟩


/-! ## Dispatch inversion -/

/-- Which entry of `table0` produced a result. -/
theorem Table0_inv (s s1 : Chip8) (h : Table0 s = .ok s1) :
    (s.opcode &&& 0x000F = 0x0 ∧ s1 = OP_00E0 s)
    ∨ (s.opcode &&& 0x000F = 0xE ∧ OP_00EE s = .ok s1)
    ∨ (s.opcode &&& 0x000F ≤ 0xE ∧ s1 = OP_NULL s) := by
  simp only [Table0] at h
  by_cases c0 : s.opcode &&& 0x000F = 0x0
  · rw [if_pos c0] at h
    exact Or.inl ⟨c0, (Except.ok.inj h).symm⟩
  refine Or.inr ?_
  rw [if_neg c0] at h
  by_cases c1 : s.opcode &&& 0x000F = 0xE
  · rw [if_pos c1] at h
    exact Or.inl ⟨c1, h⟩
  refine Or.inr ?_
  rw [if_neg c1] at h
  by_cases cle : s.opcode &&& 0x000F ≤ 0xE
  · rw [if_pos cle] at h
    exact ⟨cle, (Except.ok.inj h).symm⟩
  rw [if_neg cle] at h
  exact absurd h (by simp)

/-- Which entry of `table8` produced a result. -/
theorem Table8_inv (s s1 : Chip8) (h : Table8 s = .ok s1) :
    (s.opcode &&& 0x000F = 0x0 ∧ s1 = OP_8xy0 s)
    ∨ (s.opcode &&& 0x000F = 0x1 ∧ s1 = OP_8xy1 s)
    ∨ (s.opcode &&& 0x000F = 0x2 ∧ s1 = OP_8xy2 s)
    ∨ (s.opcode &&& 0x000F = 0x3 ∧ s1 = OP_8xy3 s)
    ∨ (s.opcode &&& 0x000F = 0x4 ∧ s1 = OP_8xy4 s)
    ∨ (s.opcode &&& 0x000F = 0x5 ∧ s1 = OP_8xy5 s)
    ∨ (s.opcode &&& 0x000F = 0x6 ∧ s1 = OP_8xy6 s)
    ∨ (s.opcode &&& 0x000F = 0x7 ∧ s1 = OP_8xy7 s)
    ∨ (s.opcode &&& 0x000F = 0xE ∧ s1 = OP_8xyE s)
    ∨ (s.opcode &&& 0x000F ≤ 0xE ∧ s1 = OP_NULL s) := by
  simp only [Table8] at h
  by_cases c0 : s.opcode &&& 0x000F = 0x0
  · rw [if_pos c0] at h
    exact Or.inl ⟨c0, (Except.ok.inj h).symm⟩
  refine Or.inr ?_
  rw [if_neg c0] at h
  by_cases c1 : s.opcode &&& 0x000F = 0x1
  · rw [if_pos c1] at h
    exact Or.inl ⟨c1, (Except.ok.inj h).symm⟩
  refine Or.inr ?_
  rw [if_neg c1] at h
  by_cases c2 : s.opcode &&& 0x000F = 0x2
  · rw [if_pos c2] at h
    exact Or.inl ⟨c2, (Except.ok.inj h).symm⟩
  refine Or.inr ?_
  rw [if_neg c2] at h
  by_cases c3 : s.opcode &&& 0x000F = 0x3
  · rw [if_pos c3] at h
    exact Or.inl ⟨c3, (Except.ok.inj h).symm⟩
  refine Or.inr ?_
  rw [if_neg c3] at h
  by_cases c4 : s.opcode &&& 0x000F = 0x4
  · rw [if_pos c4] at h
    exact Or.inl ⟨c4, (Except.ok.inj h).symm⟩
  refine Or.inr ?_
  rw [if_neg c4] at h
  by_cases c5 : s.opcode &&& 0x000F = 0x5
  · rw [if_pos c5] at h
    exact Or.inl ⟨c5, (Except.ok.inj h).symm⟩
  refine Or.inr ?_
  rw [if_neg c5] at h
  by_cases c6 : s.opcode &&& 0x000F = 0x6
  · rw [if_pos c6] at h
    exact Or.inl ⟨c6, (Except.ok.inj h).symm⟩
  refine Or.inr ?_
  rw [if_neg c6] at h
  by_cases c7 : s.opcode &&& 0x000F = 0x7
  · rw [if_pos c7] at h
    exact Or.inl ⟨c7, (Except.ok.inj h).symm⟩
  refine Or.inr ?_
  rw [if_neg c7] at h
  by_cases c8 : s.opcode &&& 0x000F = 0xE
  · rw [if_pos c8] at h
    exact Or.inl ⟨c8, (Except.ok.inj h).symm⟩
  refine Or.inr ?_
  rw [if_neg c8] at h
  by_cases cle : s.opcode &&& 0x000F ≤ 0xE
  · rw [if_pos cle] at h
    exact ⟨cle, (Except.ok.inj h).symm⟩
  rw [if_neg cle] at h
  exact absurd h (by simp)

/-- Which entry of `tableE` produced a result. -/
theorem TableE_inv (s s1 : Chip8) (h : TableE s = .ok s1) :
    (s.opcode &&& 0x000F = 0x1 ∧ OP_ExA1 s = .ok s1)
    ∨ (s.opcode &&& 0x000F = 0xE ∧ OP_Ex9E s = .ok s1)
    ∨ (s.opcode &&& 0x000F ≤ 0xE ∧ s1 = OP_NULL s) := by
  simp only [TableE] at h
  by_cases c0 : s.opcode &&& 0x000F = 0x1
  · rw [if_pos c0] at h
    exact Or.inl ⟨c0, h⟩
  refine Or.inr ?_
  rw [if_neg c0] at h
  by_cases c1 : s.opcode &&& 0x000F = 0xE
  · rw [if_pos c1] at h
    exact Or.inl ⟨c1, h⟩
  refine Or.inr ?_
  rw [if_neg c1] at h
  by_cases cle : s.opcode &&& 0x000F ≤ 0xE
  · rw [if_pos cle] at h
    exact ⟨cle, (Except.ok.inj h).symm⟩
  rw [if_neg cle] at h
  exact absurd h (by simp)

/-- Which entry of `tableF` produced a result. -/
theorem TableF_inv (s s1 : Chip8) (h : TableF s = .ok s1) :
    (s.opcode &&& 0x00FF = 0x07 ∧ s1 = OP_Fx07 s)
    ∨ (s.opcode &&& 0x00FF = 0x0A ∧ s1 = OP_Fx0A s)
    ∨ (s.opcode &&& 0x00FF = 0x15 ∧ s1 = OP_Fx15 s)
    ∨ (s.opcode &&& 0x00FF = 0x18 ∧ s1 = OP_Fx18 s)
    ∨ (s.opcode &&& 0x00FF = 0x1E ∧ s1 = OP_Fx1E s)
    ∨ (s.opcode &&& 0x00FF = 0x29 ∧ s1 = OP_Fx29 s)
    ∨ (s.opcode &&& 0x00FF = 0x33 ∧ OP_Fx33 s = .ok s1)
    ∨ (s.opcode &&& 0x00FF = 0x55 ∧ OP_Fx55 s = .ok s1)
    ∨ (s.opcode &&& 0x00FF = 0x65 ∧ OP_Fx65 s = .ok s1)
    ∨ (s.opcode &&& 0x00FF ≤ 0x65 ∧ s1 = OP_NULL s) := by
  simp only [TableF] at h
  by_cases c0 : s.opcode &&& 0x00FF = 0x07
  · rw [if_pos c0] at h
    exact Or.inl ⟨c0, (Except.ok.inj h).symm⟩
  refine Or.inr ?_
  rw [if_neg c0] at h
  by_cases c1 : s.opcode &&& 0x00FF = 0x0A
  · rw [if_pos c1] at h
    exact Or.inl ⟨c1, (Except.ok.inj h).symm⟩
  refine Or.inr ?_
  rw [if_neg c1] at h
  by_cases c2 : s.opcode &&& 0x00FF = 0x15
  · rw [if_pos c2] at h
    exact Or.inl ⟨c2, (Except.ok.inj h).symm⟩
  refine Or.inr ?_
  rw [if_neg c2] at h
  by_cases c3 : s.opcode &&& 0x00FF = 0x18
  · rw [if_pos c3] at h
    exact Or.inl ⟨c3, (Except.ok.inj h).symm⟩
  refine Or.inr ?_
  rw [if_neg c3] at h
  by_cases c4 : s.opcode &&& 0x00FF = 0x1E
  · rw [if_pos c4] at h
    exact Or.inl ⟨c4, (Except.ok.inj h).symm⟩
  refine Or.inr ?_
  rw [if_neg c4] at h
  by_cases c5 : s.opcode &&& 0x00FF = 0x29
  · rw [if_pos c5] at h
    exact Or.inl ⟨c5, (Except.ok.inj h).symm⟩
  refine Or.inr ?_
  rw [if_neg c5] at h
  by_cases c6 : s.opcode &&& 0x00FF = 0x33
  · rw [if_pos c6] at h
    exact Or.inl ⟨c6, h⟩
  refine Or.inr ?_
  rw [if_neg c6] at h
  by_cases c7 : s.opcode &&& 0x00FF = 0x55
  · rw [if_pos c7] at h
    exact Or.inl ⟨c7, h⟩
  refine Or.inr ?_
  rw [if_neg c7] at h
  by_cases c8 : s.opcode &&& 0x00FF = 0x65
  · rw [if_pos c8] at h
    exact Or.inl ⟨c8, h⟩
  refine Or.inr ?_
  rw [if_neg c8] at h
  by_cases cle : s.opcode &&& 0x00FF ≤ 0x65
  · rw [if_pos cle] at h
    exact ⟨cle, (Except.ok.inj h).symm⟩
  rw [if_neg cle] at h
  exact absurd h (by simp)

/-- Which entry of the first-stage `table` produced a result. -/
theorem table_inv (s s1 : Chip8) (h : table s = .ok s1) :
    ((s.opcode &&& 0xF000) >>> 12 = 0x0 ∧ Table0 s = .ok s1)
    ∨ ((s.opcode &&& 0xF000) >>> 12 = 0x1 ∧ s1 = OP_1nnn s)
    ∨ ((s.opcode &&& 0xF000) >>> 12 = 0x2 ∧ OP_2nnn s = .ok s1)
    ∨ ((s.opcode &&& 0xF000) >>> 12 = 0x3 ∧ s1 = OP_3xkk s)
    ∨ ((s.opcode &&& 0xF000) >>> 12 = 0x4 ∧ s1 = OP_4xkk s)
    ∨ ((s.opcode &&& 0xF000) >>> 12 = 0x5 ∧ s1 = OP_5xy0 s)
    ∨ ((s.opcode &&& 0xF000) >>> 12 = 0x6 ∧ s1 = OP_6xkk s)
    ∨ ((s.opcode &&& 0xF000) >>> 12 = 0x7 ∧ s1 = OP_7xkk s)
    ∨ ((s.opcode &&& 0xF000) >>> 12 = 0x8 ∧ Table8 s = .ok s1)
    ∨ ((s.opcode &&& 0xF000) >>> 12 = 0x9 ∧ s1 = OP_9xy0 s)
    ∨ ((s.opcode &&& 0xF000) >>> 12 = 0xA ∧ s1 = OP_Annn s)
    ∨ ((s.opcode &&& 0xF000) >>> 12 = 0xB ∧ s1 = OP_Bnnn s)
    ∨ ((s.opcode &&& 0xF000) >>> 12 = 0xC ∧ s1 = OP_Cxkk s)
    ∨ ((s.opcode &&& 0xF000) >>> 12 = 0xD ∧ OP_Dxyn s = .ok s1)
    ∨ ((s.opcode &&& 0xF000) >>> 12 = 0xE ∧ TableE s = .ok s1)
    ∨ ((s.opcode &&& 0xF000) >>> 12 = 0xF ∧ TableF s = .ok s1) := by
  simp only [table] at h
  by_cases c0 : (s.opcode &&& 0xF000) >>> 12 = 0x0
  · rw [if_pos c0] at h
    exact Or.inl ⟨c0, h⟩
  refine Or.inr ?_
  rw [if_neg c0] at h
  by_cases c1 : (s.opcode &&& 0xF000) >>> 12 = 0x1
  · rw [if_pos c1] at h
    exact Or.inl ⟨c1, (Except.ok.inj h).symm⟩
  refine Or.inr ?_
  rw [if_neg c1] at h
  by_cases c2 : (s.opcode &&& 0xF000) >>> 12 = 0x2
  · rw [if_pos c2] at h
    exact Or.inl ⟨c2, h⟩
  refine Or.inr ?_
  rw [if_neg c2] at h
  by_cases c3 : (s.opcode &&& 0xF000) >>> 12 = 0x3
  · rw [if_pos c3] at h
    exact Or.inl ⟨c3, (Except.ok.inj h).symm⟩
  refine Or.inr ?_
  rw [if_neg c3] at h
  by_cases c4 : (s.opcode &&& 0xF000) >>> 12 = 0x4
  · rw [if_pos c4] at h
    exact Or.inl ⟨c4, (Except.ok.inj h).symm⟩
  refine Or.inr ?_
  rw [if_neg c4] at h
  by_cases c5 : (s.opcode &&& 0xF000) >>> 12 = 0x5
  · rw [if_pos c5] at h
    exact Or.inl ⟨c5, (Except.ok.inj h).symm⟩
  refine Or.inr ?_
  rw [if_neg c5] at h
  by_cases c6 : (s.opcode &&& 0xF000) >>> 12 = 0x6
  · rw [if_pos c6] at h
    exact Or.inl ⟨c6, (Except.ok.inj h).symm⟩
  refine Or.inr ?_
  rw [if_neg c6] at h
  by_cases c7 : (s.opcode &&& 0xF000) >>> 12 = 0x7
  · rw [if_pos c7] at h
    exact Or.inl ⟨c7, (Except.ok.inj h).symm⟩
  refine Or.inr ?_
  rw [if_neg c7] at h
  by_cases c8 : (s.opcode &&& 0xF000) >>> 12 = 0x8
  · rw [if_pos c8] at h
    exact Or.inl ⟨c8, h⟩
  refine Or.inr ?_
  rw [if_neg c8] at h
  by_cases c9 : (s.opcode &&& 0xF000) >>> 12 = 0x9
  · rw [if_pos c9] at h
    exact Or.inl ⟨c9, (Except.ok.inj h).symm⟩
  refine Or.inr ?_
  rw [if_neg c9] at h
  by_cases c10 : (s.opcode &&& 0xF000) >>> 12 = 0xA
  · rw [if_pos c10] at h
    exact Or.inl ⟨c10, (Except.ok.inj h).symm⟩
  refine Or.inr ?_
  rw [if_neg c10] at h
  by_cases c11 : (s.opcode &&& 0xF000) >>> 12 = 0xB
  · rw [if_pos c11] at h
    exact Or.inl ⟨c11, (Except.ok.inj h).symm⟩
  refine Or.inr ?_
  rw [if_neg c11] at h
  by_cases c12 : (s.opcode &&& 0xF000) >>> 12 = 0xC
  · rw [if_pos c12] at h
    exact Or.inl ⟨c12, (Except.ok.inj h).symm⟩
  refine Or.inr ?_
  rw [if_neg c12] at h
  by_cases c13 : (s.opcode &&& 0xF000) >>> 12 = 0xD
  · rw [if_pos c13] at h
    exact Or.inl ⟨c13, h⟩
  refine Or.inr ?_
  rw [if_neg c13] at h
  by_cases c14 : (s.opcode &&& 0xF000) >>> 12 = 0xE
  · rw [if_pos c14] at h
    exact Or.inl ⟨c14, h⟩
  refine Or.inr ?_
  rw [if_neg c14] at h
  by_cases c15 : (s.opcode &&& 0xF000) >>> 12 = 0xF
  · rw [if_pos c15] at h
    exact ⟨c15, h⟩
  rw [if_neg c15] at h
  exact absurd h (by simp)


/-! ## Timers -/

/-- Outcome of the key scan of `OP_Fx0A`: either some key `k` is stored in Vx, or
PC is stepped back. -/
theorem OP_Fx0A_cases (s : Chip8) :
    (∃ k, k < 16 ∧ s.keypad k ≠ 0
        ∧ OP_Fx0A s = { s with registers := setAt s.registers (opX s.opcode) k })
    ∨ OP_Fx0A s = { s with pc := sub16 s.pc 2 } := by
  simp only [OP_Fx0A]
  by_cases c0 : s.keypad 0 ≠ 0
  · rw [if_pos c0]; exact Or.inl ⟨0, by decide, c0, rfl⟩
  rw [if_neg c0]
  by_cases c1 : s.keypad 1 ≠ 0
  · rw [if_pos c1]; exact Or.inl ⟨1, by decide, c1, rfl⟩
  rw [if_neg c1]
  by_cases c2 : s.keypad 2 ≠ 0
  · rw [if_pos c2]; exact Or.inl ⟨2, by decide, c2, rfl⟩
  rw [if_neg c2]
  by_cases c3 : s.keypad 3 ≠ 0
  · rw [if_pos c3]; exact Or.inl ⟨3, by decide, c3, rfl⟩
  rw [if_neg c3]
  by_cases c4 : s.keypad 4 ≠ 0
  · rw [if_pos c4]; exact Or.inl ⟨4, by decide, c4, rfl⟩
  rw [if_neg c4]
  by_cases c5 : s.keypad 5 ≠ 0
  · rw [if_pos c5]; exact Or.inl ⟨5, by decide, c5, rfl⟩
  rw [if_neg c5]
  by_cases c6 : s.keypad 6 ≠ 0
  · rw [if_pos c6]; exact Or.inl ⟨6, by decide, c6, rfl⟩
  rw [if_neg c6]
  by_cases c7 : s.keypad 7 ≠ 0
  · rw [if_pos c7]; exact Or.inl ⟨7, by decide, c7, rfl⟩
  rw [if_neg c7]
  by_cases c8 : s.keypad 8 ≠ 0
  · rw [if_pos c8]; exact Or.inl ⟨8, by decide, c8, rfl⟩
  rw [if_neg c8]
  by_cases c9 : s.keypad 9 ≠ 0
  · rw [if_pos c9]; exact Or.inl ⟨9, by decide, c9, rfl⟩
  rw [if_neg c9]
  by_cases c10 : s.keypad 10 ≠ 0
  · rw [if_pos c10]; exact Or.inl ⟨10, by decide, c10, rfl⟩
  rw [if_neg c10]
  by_cases c11 : s.keypad 11 ≠ 0
  · rw [if_pos c11]; exact Or.inl ⟨11, by decide, c11, rfl⟩
  rw [if_neg c11]
  by_cases c12 : s.keypad 12 ≠ 0
  · rw [if_pos c12]; exact Or.inl ⟨12, by decide, c12, rfl⟩
  rw [if_neg c12]
  by_cases c13 : s.keypad 13 ≠ 0
  · rw [if_pos c13]; exact Or.inl ⟨13, by decide, c13, rfl⟩
  rw [if_neg c13]
  by_cases c14 : s.keypad 14 ≠ 0
  · rw [if_pos c14]; exact Or.inl ⟨14, by decide, c14, rfl⟩
  rw [if_neg c14]
  by_cases c15 : s.keypad 15 ≠ 0
  · rw [if_pos c15]; exact Or.inl ⟨15, by decide, c15, rfl⟩
  rw [if_neg c15]
  exact Or.inr rfl

theorem skips_sameTimers (s : Chip8) :
    sameTimers s (OP_3xkk s) ∧ sameTimers s (OP_4xkk s) ∧ sameTimers s (OP_5xy0 s)
    ∧ sameTimers s (OP_9xy0 s) ∧ sameTimers s (OP_Fx0A s) := by
  refine ⟨?_, ?_, ?_, ?_, ?_⟩
  · simp only [OP_3xkk]; split_ifs <;> exact ⟨rfl, rfl⟩
  · simp only [OP_4xkk]; split_ifs <;> exact ⟨rfl, rfl⟩
  · simp only [OP_5xy0]; split_ifs <;> exact ⟨rfl, rfl⟩
  · simp only [OP_9xy0]; split_ifs <;> exact ⟨rfl, rfl⟩
  · rcases OP_Fx0A_cases s with ⟨k, _, _, h⟩ | h <;> rw [h] <;> exact ⟨rfl, rfl⟩

theorem fallible_sameTimers (s s1 : Chip8) :
    (OP_00EE s = .ok s1 → sameTimers s s1) ∧ (OP_2nnn s = .ok s1 → sameTimers s s1)
    ∧ (OP_Ex9E s = .ok s1 → sameTimers s s1) ∧ (OP_ExA1 s = .ok s1 → sameTimers s s1)
    ∧ (OP_Fx33 s = .ok s1 → sameTimers s s1) := by
  refine ⟨?_, ?_, ?_, ?_, ?_⟩
  · intro h
    simp only [OP_00EE] at h
    split_ifs at h
    rw [← Except.ok.inj h]; exact ⟨rfl, rfl⟩
  · intro h
    simp only [OP_2nnn] at h
    split_ifs at h
    rw [← Except.ok.inj h]; exact ⟨rfl, rfl⟩
  · intro h
    simp only [OP_Ex9E] at h
    split_ifs at h <;> rw [← Except.ok.inj h] <;> exact ⟨rfl, rfl⟩
  · intro h
    simp only [OP_ExA1] at h
    split_ifs at h <;> rw [← Except.ok.inj h] <;> exact ⟨rfl, rfl⟩
  · intro h
    simp only [OP_Fx33] at h
    split_ifs at h
    rw [← Except.ok.inj h]; exact ⟨rfl, rfl⟩

theorem loops_sameTimers (s s1 : Chip8) :
    (OP_Fx55 s = .ok s1 → sameTimers s s1) ∧ (OP_Fx65 s = .ok s1 → sameTimers s s1)
    ∧ (OP_Dxyn s = .ok s1 → sameTimers s s1) := by
  refine ⟨?_, ?_, ?_⟩
  · intro h
    simp only [OP_Fx55] at h
    refine forLoop_indexed (fun _ u => sameTimers s u) _ ?_ _ _ _ _ ?_ h
    · intro i u u1 hP hb
      split_ifs at hb
      rw [← Except.ok.inj hb]; exact hP
    · exact ⟨rfl, rfl⟩
  · intro h
    simp only [OP_Fx65] at h
    refine forLoop_indexed (fun _ u => sameTimers s u) _ ?_ _ _ _ _ ?_ h
    · intro i u u1 hP hb
      split_ifs at hb
      rw [← Except.ok.inj hb]; exact hP
    · exact ⟨rfl, rfl⟩
  · intro h
    have d := OP_Dxyn_drawn s s1 h
    exact ⟨d.2.2.2.2.2.2.2.1, d.2.2.2.2.2.2.2.2.1⟩

theorem table_timers (s s1 : Chip8) (h : table s = .ok s1) (hw : ¬ isTimerWrite s.opcode) :
    sameTimers s s1 := by
  rcases table_inv s s1 h with
    ⟨_, h⟩ | ⟨_, rfl⟩ | ⟨_, h⟩ | ⟨_, rfl⟩ | ⟨_, rfl⟩ | ⟨_, rfl⟩ | ⟨_, rfl⟩ | ⟨_, rfl⟩ | ⟨_, h⟩
    | ⟨_, rfl⟩ | ⟨_, rfl⟩ | ⟨_, rfl⟩ | ⟨_, rfl⟩ | ⟨_, h⟩ | ⟨_, h⟩ | ⟨cF, h⟩
  · rcases Table0_inv s s1 h with ⟨_, rfl⟩ | ⟨_, h⟩ | ⟨_, rfl⟩
    · exact ⟨rfl, rfl⟩
    · exact (fallible_sameTimers s s1).1 h
    · exact ⟨rfl, rfl⟩
  · exact ⟨rfl, rfl⟩
  · exact (fallible_sameTimers s s1).2.1 h
  · exact (skips_sameTimers s).1
  · exact (skips_sameTimers s).2.1
  · exact (skips_sameTimers s).2.2.1
  · exact ⟨rfl, rfl⟩
  · exact ⟨rfl, rfl⟩
  · rcases Table8_inv s s1 h with
      ⟨_, rfl⟩ | ⟨_, rfl⟩ | ⟨_, rfl⟩ | ⟨_, rfl⟩ | ⟨_, rfl⟩ | ⟨_, rfl⟩ | ⟨_, rfl⟩ | ⟨_, rfl⟩
      | ⟨_, rfl⟩ | ⟨_, rfl⟩ <;> exact ⟨rfl, rfl⟩
  · exact (skips_sameTimers s).2.2.2.1
  · exact ⟨rfl, rfl⟩
  · exact ⟨rfl, rfl⟩
  · exact ⟨rfl, rfl⟩
  · exact (loops_sameTimers s s1).2.2 h
  · rcases TableE_inv s s1 h with ⟨_, h⟩ | ⟨_, h⟩ | ⟨_, rfl⟩
    · exact (fallible_sameTimers s s1).2.2.2.1 h
    · exact (fallible_sameTimers s s1).2.2.1 h
    · exact ⟨rfl, rfl⟩
  · rcases TableF_inv s s1 h with
      ⟨_, rfl⟩ | ⟨_, rfl⟩ | ⟨c15, rfl⟩ | ⟨c18, rfl⟩ | ⟨_, rfl⟩ | ⟨_, rfl⟩ | ⟨_, h⟩ | ⟨_, h⟩
      | ⟨_, h⟩ | ⟨_, rfl⟩
    · exact ⟨rfl, rfl⟩
    · exact (skips_sameTimers s).2.2.2.2
    · exact absurd ⟨cF, Or.inl c15⟩ hw
    · exact absurd ⟨cF, Or.inr c18⟩ hw
    · exact ⟨rfl, rfl⟩
    · exact ⟨rfl, rfl⟩
    · exact (fallible_sameTimers s s1).2.2.2.2 h
    · exact (loops_sameTimers s s1).1 h
    · exact (loops_sameTimers s s1).2.1 h
    · exact ⟨rfl, rfl⟩


theorem cycle_inv (s s1 : Chip8) (h : cycle s = .ok s1) :
    ∃ s2, table { s with opcode := fetch s, pc := wrap16 (s.pc + 2) } = .ok s2
      ∧ s1 = decayTimers s2 := by
  simp only [cycle] at h
  split_ifs at h
  cases ht : table { s with opcode := fetch s, pc := wrap16 (s.pc + 2) } with
  | error e => rw [ht] at h; simp at h
  | ok s2 =>
    rw [ht] at h
    exact ⟨s2, rfl, (Except.ok.inj h).symm⟩

theorem decayTimers_values (s : Chip8) (hd : s.delayTimer < 256) (hs : s.soundTimer < 256) :
    (decayTimers s).delayTimer = s.delayTimer - 1
    ∧ (decayTimers s).soundTimer = s.soundTimer - 1 := by
  by_cases h1 : s.delayTimer > 0 <;> by_cases h2 : s.soundTimer > 0 <;>
    simp only [decayTimers, sub8, h1, h2, if_true, if_false] <;> omega

theorem cycle_timers_step (s s1 : Chip8) (hd : s.delayTimer < 256) (hs : s.soundTimer < 256)
    (h : cycle s = .ok s1) (hw : ¬ isTimerWrite (fetch s)) :
    s1.delayTimer = s.delayTimer - 1 ∧ s1.soundTimer = s.soundTimer - 1 := by
  obtain ⟨s2, ht, rfl⟩ := cycle_inv s s1 h
  obtain ⟨e1, e2⟩ := table_timers _ s2 ht hw
  have e1b : s2.delayTimer = s.delayTimer := e1
  have e2b : s2.soundTimer = s.soundTimer := e2
  have hv := decayTimers_values s2 (by rw [e1b]; exact hd) (by rw [e2b]; exact hs)
  rw [e1b, e2b] at hv
  exact hv

/-- Claim C9, amended: for timers holding 8-bit values, a cycle that returns (no
access outside an array) and whose
fetched word is neither Fx15 nor Fx18 leaves each timer one lower when it was
positive and 0 otherwise; hence after n such cycles each timer is its initial
value minus n, cut off at 0 (the truncated subtraction of the naturals). -/
theorem cycle_timer_decay (s : Chip8) (hd : s.delayTimer < 256) (hs : s.soundTimer < 256) :
    (∀ s1, cycle s = .ok s1 → ¬ isTimerWrite (fetch s) →
      s1.delayTimer = (if s.delayTimer > 0 then s.delayTimer - 1 else 0)
      ∧ s1.soundTimer = (if s.soundTimer > 0 then s.soundTimer - 1 else 0))
    ∧ (∀ n sn, runCycles n s = .ok sn →
        (∀ k sk, k < n → runCycles k s = .ok sk → ¬ isTimerWrite (fetch sk)) →
        sn.delayTimer = s.delayTimer - n ∧ sn.soundTimer = s.soundTimer - n) := by
  constructor
  · intro s1 h hw
    obtain ⟨a, b⟩ := cycle_timers_step s s1 hd hs h hw
    rw [a, b]
    constructor <;> split <;> omega
  · intro n
    induction n generalizing s with
    | zero =>
      intro sn h _
      simp only [runCycles, Except.ok.injEq] at h
      rw [← h]
      exact ⟨rfl, rfl⟩
    | succ n ih =>
      intro sn h hall
      simp only [runCycles] at h
      cases hc : cycle s with
      | error e => rw [hc] at h; simp at h
      | ok s1 =>
        rw [hc] at h
        have hw0 : ¬ isTimerWrite (fetch s) := hall 0 s (by omega) rfl
        obtain ⟨a, b⟩ := cycle_timers_step s s1 hd hs hc hw0
        obtain ⟨c, d⟩ := ih s1 (by omega) (by omega) sn h (by
          intro k sk hk hrun
          refine hall (k + 1) sk (by omega) ?_
          simp only [runCycles, hc, hrun])
        exact ⟨by omega, by omega⟩


theorem cycle_timer_decay_witness :
    timerState.delayTimer = 5 ∧ timerState.soundTimer = 5
    ∧ (∃ s4, runCycles 4 timerState = .ok s4 ∧ s4.delayTimer = 1 ∧ s4.soundTimer = 1)
    ∧ (∃ s5, runCycles 5 timerState = .ok s5 ∧ s5.delayTimer = 0 ∧ s5.soundTimer = 0)
    ∧ (∃ s7, runCycles 7 timerState = .ok s7 ∧ s7.delayTimer = 0 ∧ s7.soundTimer = 0) := by
  have hall : ∀ k sk, k < 7 → runCycles k timerState = .ok sk → ¬ isTimerWrite (fetch sk) := by
    intro k sk hk hrun
    have hcheck : ∀ j, j < 7 → (match runCycles j timerState with
        | .ok t => decide (isTimerWrite (fetch t))
        | .error _ => false) = false := by decide
    have hc := hcheck k hk
    rw [hrun] at hc
    exact of_decide_eq_false hc
  have T := (cycle_timer_decay timerState (by decide) (by decide)).2
  obtain ⟨s4, h4⟩ : ∃ s4, runCycles 4 timerState = .ok s4 := ⟨_, rfl⟩
  obtain ⟨s5, h5⟩ : ∃ s5, runCycles 5 timerState = .ok s5 := ⟨_, rfl⟩
  obtain ⟨s7, h7⟩ : ∃ s7, runCycles 7 timerState = .ok s7 := ⟨_, rfl⟩
  exact ⟨rfl, rfl,
    ⟨s4, h4, T 4 s4 h4 (fun k sk hk => hall k sk (by omega))⟩,
    ⟨s5, h5, T 5 s5 h5 (fun k sk hk => hall k sk (by omega))⟩,
    ⟨s7, h7, T 7 s7 h7 (fun k sk hk => hall k sk (by omega))⟩⟩

/-! ## Unassigned opcodes -/

theorem table_second_stage (s : Chip8) :
    ((s.opcode &&& 0xF000) >>> 12 = 0x0 → table s = Table0 s)
    ∧ ((s.opcode &&& 0xF000) >>> 12 = 0x8 → table s = Table8 s)
    ∧ ((s.opcode &&& 0xF000) >>> 12 = 0xE → table s = TableE s)
    ∧ ((s.opcode &&& 0xF000) >>> 12 = 0xF → table s = TableF s) := by
  refine ⟨?_, ?_, ?_, ?_⟩ <;> intro a <;> simp [table, a]

/-- Claim C11, evaluated at words whose second-stage index lies past the end of
the second-stage array: the words 000F, 800F, E00F (low nibble 0xF, arrays of
0xE + 1 entries) and F0FF, F066 (low byte above 0x65, array of 0x65 + 1 entries)
have no handler, and the cycle that fetches one of them reads outside the
array instead of running `OP_NULL`. -/
theorem unassigned_opcode_outside_table :
    fetch (wordState 0x00 0x0F) = 0x000F ∧ cycle (wordState 0x00 0x0F) = .error .tableBounds
    ∧ fetch (wordState 0x80 0x0F) = 0x800F ∧ cycle (wordState 0x80 0x0F) = .error .tableBounds
    ∧ fetch (wordState 0xE0 0x0F) = 0xE00F ∧ cycle (wordState 0xE0 0x0F) = .error .tableBounds
    ∧ fetch (wordState 0xF0 0xFF) = 0xF0FF ∧ cycle (wordState 0xF0 0xFF) = .error .tableBounds
    ∧ fetch (wordState 0xF0 0x66) = 0xF066
    ∧ cycle (wordState 0xF0 0x66) = .error .tableBounds :=
  ⟨by decide, rfl, by decide, rfl, by decide, rfl, by decide, rfl, by decide, rfl⟩

theorem table_unassigned (t : Chip8) (hun : unassignedInTable t.opcode) :
    table t = .ok (OP_NULL t) := by
  rcases hun with ⟨a, b, c, d⟩ | ⟨a, b, c⟩ | ⟨a, b, c, d⟩ | ⟨a, b1, b2, b3, b4, b5, b6, b7, b8, b9, c⟩
  · rw [(table_second_stage t).1 a]
    simp only [Table0, b, c, d, if_true, if_false]
  · have n0 : ¬ (t.opcode &&& 0x000F = 0x0) := by omega
    have n1 : ¬ (t.opcode &&& 0x000F = 0x1) := by omega
    have n2 : ¬ (t.opcode &&& 0x000F = 0x2) := by omega
    have n3 : ¬ (t.opcode &&& 0x000F = 0x3) := by omega
    have n4 : ¬ (t.opcode &&& 0x000F = 0x4) := by omega
    have n5 : ¬ (t.opcode &&& 0x000F = 0x5) := by omega
    have n6 : ¬ (t.opcode &&& 0x000F = 0x6) := by omega
    have n7 : ¬ (t.opcode &&& 0x000F = 0x7) := by omega
    have nE : ¬ (t.opcode &&& 0x000F = 0xE) := by omega
    have le : t.opcode &&& 0x000F ≤ 0xE := by omega
    rw [(table_second_stage t).2.1 a]
    simp only [Table8, n0, n1, n2, n3, n4, n5, n6, n7, nE, le, if_true, if_false]
  · rw [(table_second_stage t).2.2.1 a]
    simp only [TableE, b, c, d, if_true, if_false]
  · rw [(table_second_stage t).2.2.2 a]
    simp only [TableF, b1, b2, b3, b4, b5, b6, b7, b8, b9, c, if_true, if_false]

/-- An unassigned word whose second-stage index lies inside the array runs
`OP_NULL`: the cycle returns and changes only PC (advanced by 2), the opcode
register and the timers. -/
theorem cycle_unassigned_in_table (s : Chip8) (hpc : s.pc ≤ 4094)
    (hun : unassignedInTable (fetch s)) :
    cycle s = .ok (decayTimers { s with opcode := fetch s, pc := wrap16 (s.pc + 2) })
    ∧ ∃ s1, cycle s = .ok s1 ∧ s1.pc = s.pc + 2 ∧ s1.registers = s.registers
      ∧ s1.index = s.index ∧ s1.stack = s.stack ∧ s1.sp = s.sp ∧ s1.memory = s.memory
      ∧ s1.video = s.video := by
  have ht : table { s with opcode := fetch s, pc := wrap16 (s.pc + 2) }
      = .ok (OP_NULL { s with opcode := fetch s, pc := wrap16 (s.pc + 2) }) :=
    table_unassigned { s with opcode := fetch s, pc := wrap16 (s.pc + 2) } hun
  have hc := cycle_of_table (by omega) ht
  obtain ⟨_, e2, e3, e4, e5, e6, e7, _, e9⟩ :=
    decayTimers_frame (OP_NULL { s with opcode := fetch s, pc := wrap16 (s.pc + 2) })
  have hw : wrap16 (s.pc + 2) = s.pc + 2 := by unfold wrap16; omega
  exact ⟨hc, _, hc, e5.trans hw, e3, e4, e6, e7, e9, e2⟩

theorem cycle_unassigned_in_table_witness :
    (wordState 0x81 0x2A).pc ≤ 4094 ∧ fetch (wordState 0x81 0x2A) = 0x812A
    ∧ unassignedInTable (fetch (wordState 0x81 0x2A))
    ∧ ∃ s1, cycle (wordState 0x81 0x2A) = .ok s1 ∧ s1.pc = 0x202
      ∧ s1.registers = (wordState 0x81 0x2A).registers := by
  have hun : unassignedInTable (fetch (wordState 0x81 0x2A)) :=
    Or.inr (Or.inl ⟨by decide, by decide, by decide⟩)
  obtain ⟨_, s1, h, hp, hr, _⟩ := cycle_unassigned_in_table (wordState 0x81 0x2A) (by decide) hun
  exact ⟨by decide, by decide, hun, s1, h, hp, hr⟩

/-! ## Construction -/

/-- Claim C12, evaluated on storage that held 7 and 9 where the two timers are
placed: the initialiser list of the constructor leaves `delayTimer` and
`soundTimer` out, so after construction they are 7 and 9 rather than 0. -/
theorem ctor_leaves_timers_uninitialised :
    (Chip8_ctor (fun _ => 0) 7 9 (fun _ => 0)).delayTimer = 7
    ∧ (Chip8_ctor (fun _ => 0) 7 9 (fun _ => 0)).soundTimer = 9
    ∧ (Chip8_ctor (fun _ => 0) 7 9 (fun _ => 0)).pc = 0x200
    ∧ (Chip8_ctor (fun _ => 0) 7 9 (fun _ => 0)).sp = 0 := by
  decide

/-- Everything the constructor does initialise: PC = 0x200, the registers, I,
the stack, the stack pointer, the opcode register and the framebuffer are 0, the
80 font bytes sit at 0x050 and every other memory byte is 0. -/
theorem ctor_initial_state (keypad0 : Nat → Nat) (d0 t0 : Nat) (rg : Nat → Nat) :
    (Chip8_ctor keypad0 d0 t0 rg).pc = 0x200
    ∧ (∀ r, (Chip8_ctor keypad0 d0 t0 rg).registers r = 0)
    ∧ (Chip8_ctor keypad0 d0 t0 rg).index = 0
    ∧ (∀ i, (Chip8_ctor keypad0 d0 t0 rg).stack i = 0)
    ∧ (Chip8_ctor keypad0 d0 t0 rg).sp = 0
    ∧ (Chip8_ctor keypad0 d0 t0 rg).opcode = 0
    ∧ (∀ i, (Chip8_ctor keypad0 d0 t0 rg).video i = 0)
    ∧ (∀ i, i < 80 → (Chip8_ctor keypad0 d0 t0 rg).memory (0x050 + i) = fontset.getD i 0)
    ∧ (∀ a, a < 0x050 ∨ 0x050 + 80 ≤ a → (Chip8_ctor keypad0 d0 t0 rg).memory a = 0)
    ∧ (Chip8_ctor keypad0 d0 t0 rg).delayTimer = d0
    ∧ (Chip8_ctor keypad0 d0 t0 rg).soundTimer = t0 := by
  refine ⟨rfl, fun _ => rfl, rfl, fun _ => rfl, rfl, rfl, fun _ => rfl, ?_, ?_, rfl, rfl⟩
  · intro i hi
    have h : FONTSET_START_ADDRESS ≤ 0x050 + i
        ∧ 0x050 + i < FONTSET_START_ADDRESS + FONTSET_SIZE := by
      unfold FONTSET_START_ADDRESS FONTSET_SIZE; omega
    have e : 0x050 + i - FONTSET_START_ADDRESS = i := by
      unfold FONTSET_START_ADDRESS; omega
    simp only [Chip8_ctor, h, and_self, if_true, e]
  · intro a ha
    have h : ¬ (FONTSET_START_ADDRESS ≤ a ∧ a < FONTSET_START_ADDRESS + FONTSET_SIZE) := by
      unfold FONTSET_START_ADDRESS FONTSET_SIZE; omega
    simp only [Chip8_ctor, h, if_false]

/-! ## Borrow flag -/

/-- Claim C17, evaluated at Vx = Vy = 7 (opcode fields x = 0, y = 1): neither
7 - 7 needs a borrow, yet both handlers test with a strict comparison and leave
VF = 0; the difference is 0. -/
theorem borrow_flag_zero_on_equal_operands :
    opX equalState.opcode = 0 ∧ opY equalState.opcode = 1
    ∧ equalState.registers 0 = 7 ∧ equalState.registers 1 = 7
    ∧ (OP_8xy5 equalState).registers 0xF = 0 ∧ (OP_8xy5 equalState).registers 0 = 0
    ∧ (OP_8xy7 equalState).registers 0xF = 0 ∧ (OP_8xy7 equalState).registers 0 = 0 := by
  decide

/-! ## Timer writes and reads -/

theorem word_Fx_timer (x : Nat) (hx : x < 16) :
    ((wrap16 (((0xF0 + x) <<< 8) ||| 0x15) &&& 0xF000) >>> 12 = 0xF
      ∧ wrap16 (((0xF0 + x) <<< 8) ||| 0x15) &&& 0x00FF = 0x15
      ∧ opX (wrap16 (((0xF0 + x) <<< 8) ||| 0x15)) = x)
    ∧ ((wrap16 (((0xF0 + x) <<< 8) ||| 0x18) &&& 0xF000) >>> 12 = 0xF
      ∧ wrap16 (((0xF0 + x) <<< 8) ||| 0x18) &&& 0x00FF = 0x18
      ∧ opX (wrap16 (((0xF0 + x) <<< 8) ||| 0x18)) = x)
    ∧ ((wrap16 (((0xF0 + x) <<< 8) ||| 0x07) &&& 0xF000) >>> 12 = 0xF
      ∧ wrap16 (((0xF0 + x) <<< 8) ||| 0x07) &&& 0x00FF = 0x07
      ∧ opX (wrap16 (((0xF0 + x) <<< 8) ||| 0x07)) = x) := by
  interval_cases x <;> decide

theorem decayTimers_delay (s : Chip8) (hd : s.delayTimer < 256) :
    (decayTimers s).delayTimer = s.delayTimer - 1 := by
  by_cases h1 : s.delayTimer > 0 <;> by_cases h2 : s.soundTimer > 0 <;>
    simp only [decayTimers, sub8, h1, h2, if_true, if_false] <;> omega

theorem decayTimers_sound (s : Chip8) (hs : s.soundTimer < 256) :
    (decayTimers s).soundTimer = s.soundTimer - 1 := by
  by_cases h1 : s.delayTimer > 0 <;> by_cases h2 : s.soundTimer > 0 <;>
    simp only [decayTimers, sub8, h1, h2, if_true, if_false] <;> omega

theorem table_Fx_timer (t : Chip8) (h : (t.opcode &&& 0xF000) >>> 12 = 0xF) :
    (t.opcode &&& 0x00FF = 0x15 → table t = .ok (OP_Fx15 t))
    ∧ (t.opcode &&& 0x00FF = 0x18 → table t = .ok (OP_Fx18 t))
    ∧ (t.opcode &&& 0x00FF = 0x07 → table t = .ok (OP_Fx07 t)) := by
  refine ⟨?_, ?_, ?_⟩ <;> intro b <;> rw [(table_second_stage t).2.2.2 h] <;> simp [TableF, b]

/-- Claim C19: when PC ≤ 4094 points at the bytes Fx 15 and Vx holds an 8-bit
value, one cycle returns with delayTimer = Vx - 1 if Vx > 0 and 0 if Vx = 0;
likewise Fx 18 and soundTimer; and a cycle on Fx 07 returns with Vx equal to the
delay timer from before the cycle, the timer itself one lower. -/
theorem cycle_timer_write_decays (s : Chip8) (x : Nat) (hx : x < 16) (hpc : s.pc ≤ 4094)
    (hhi : s.memory s.pc = 0xF0 + x) (hv : s.registers x < 256) :
    (s.memory (s.pc + 1) = 0x15 → ∃ s1, cycle s = .ok s1
        ∧ s1.delayTimer = (if s.registers x > 0 then s.registers x - 1 else 0))
    ∧ (s.memory (s.pc + 1) = 0x18 → ∃ s1, cycle s = .ok s1
        ∧ s1.soundTimer = (if s.registers x > 0 then s.registers x - 1 else 0))
    ∧ (s.memory (s.pc + 1) = 0x07 → s.delayTimer < 256 → ∃ s1, cycle s = .ok s1
        ∧ s1.registers x = s.delayTimer ∧ s1.delayTimer = s.delayTimer - 1) := by
  obtain ⟨⟨a1, a2, a3⟩, ⟨b1, b2, b3⟩, ⟨c1, c2, c3⟩⟩ := word_Fx_timer x hx
  refine ⟨?_, ?_, ?_⟩
  · intro hlo
    have hf : fetch s = wrap16 (((0xF0 + x) <<< 8) ||| 0x15) := by
      simp only [fetch, hhi, hlo]
    rw [← hf] at a1 a2 a3
    have ht := (table_Fx_timer { s with opcode := fetch s, pc := wrap16 (s.pc + 2) } a1).1 a2
    refine ⟨_, cycle_of_table (by omega) ht, ?_⟩
    have e : (OP_Fx15 { s with opcode := fetch s, pc := wrap16 (s.pc + 2) }).delayTimer
        = s.registers x := by
      simp only [OP_Fx15, a3]
    rw [decayTimers_delay _ (by rw [e]; exact hv), e]
    split <;> omega
  · intro hlo
    have hf : fetch s = wrap16 (((0xF0 + x) <<< 8) ||| 0x18) := by
      simp only [fetch, hhi, hlo]
    rw [← hf] at b1 b2 b3
    have ht := (table_Fx_timer { s with opcode := fetch s, pc := wrap16 (s.pc + 2) } b1).2.1 b2
    refine ⟨_, cycle_of_table (by omega) ht, ?_⟩
    have e : (OP_Fx18 { s with opcode := fetch s, pc := wrap16 (s.pc + 2) }).soundTimer
        = s.registers x := by
      simp only [OP_Fx18, b3]
    rw [decayTimers_sound _ (by rw [e]; exact hv), e]
    split <;> omega
  · intro hlo hd
    have hf : fetch s = wrap16 (((0xF0 + x) <<< 8) ||| 0x07) := by
      simp only [fetch, hhi, hlo]
    rw [← hf] at c1 c2 c3
    have ht := (table_Fx_timer { s with opcode := fetch s, pc := wrap16 (s.pc + 2) } c1).2.2 c2
    refine ⟨_, cycle_of_table (by omega) ht, ?_, ?_⟩
    · rw [(decayTimers_frame _).2.2.1]
      simp only [OP_Fx07, c3, setAt_same]
    · exact decayTimers_delay (OP_Fx07 { s with opcode := fetch s, pc := wrap16 (s.pc + 2) }) hd

theorem cycle_timer_write_decays_witness :
    delayWriteState.pc ≤ 4094 ∧ delayWriteState.memory delayWriteState.pc = 0xF0 + 2
    ∧ delayWriteState.memory (delayWriteState.pc + 1) = 0x15
    ∧ delayWriteState.registers 2 = 9
    ∧ ∃ s1, cycle delayWriteState = .ok s1 ∧ s1.delayTimer = 8 := by
  obtain ⟨s1, h, hd⟩ := (cycle_timer_write_decays delayWriteState 2 (by decide) (by decide)
    (by decide) (by decide)).1 (by decide)
  exact ⟨by decide, by decide, by decide, by decide, s1, h, hd.trans (by decide)⟩


/-! ## Call and return -/

theorem cycle_call (s : Chip8) (hpc : s.pc ≤ 4094) (hsp : s.sp < 16)
    (hcall : (fetch s &&& 0xF000) >>> 12 = 0x2) :
    ∃ s1, cycle s = .ok s1 ∧ s1.pc = opNNN (fetch s) ∧ s1.stack s.sp = s.pc + 2
      ∧ s1.sp = s.sp + 1 ∧ s1.memory = s.memory := by
  have hw : wrap16 (s.pc + 2) = s.pc + 2 := by unfold wrap16; omega
  have hw8 : wrap8 (s.sp + 1) = s.sp + 1 := by unfold wrap8; omega
  have ht : table { s with opcode := fetch s, pc := wrap16 (s.pc + 2) }
      = .ok { s with opcode := fetch s, stack := setAt s.stack s.sp (s.pc + 2),
                     sp := s.sp + 1, pc := opNNN (fetch s) } := by
    simp [table, hcall, OP_2nnn, hsp, hw, hw8]
  have hc1 := cycle_of_table (by omega) ht
  obtain ⟨_, _, _, _, e5, e6, e7, _, e9⟩ :=
    decayTimers_frame { s with opcode := fetch s, stack := setAt s.stack s.sp (s.pc + 2),
                               sp := s.sp + 1, pc := opNNN (fetch s) }
  refine ⟨_, hc1, e5, ?_, e7, e9⟩
  rw [e6]
  exact setAt_same _ _ _

theorem cycle_return (t : Chip8) (hpc : t.pc ≤ 4094) (hsp : 1 ≤ t.sp ∧ t.sp ≤ 16)
    (h0 : t.memory t.pc = 0x00) (h1 : t.memory (t.pc + 1) = 0xEE) :
    ∃ t1, cycle t = .ok t1 ∧ t1.pc = t.stack (t.sp - 1) ∧ t1.sp = t.sp - 1 := by
  have hf1 : fetch t = 0x00EE := by
    simp only [fetch, h0, h1]; decide
  have hsub : sub8 t.sp 1 = t.sp - 1 := by unfold sub8; omega
  have hlt : t.sp - 1 < 16 := by omega
  have ht1 : table { t with opcode := fetch t, pc := wrap16 (t.pc + 2) }
      = .ok { t with opcode := fetch t, sp := t.sp - 1, pc := t.stack (t.sp - 1) } := by
    have a : (fetch t &&& 0xF000) >>> 12 = 0x0 := by rw [hf1]; decide
    have b : fetch t &&& 0x000F = 0xE := by rw [hf1]; decide
    rw [(table_second_stage { t with opcode := fetch t, pc := wrap16 (t.pc + 2) }).1 a]
    simp [Table0, b, OP_00EE, hsub, hlt]
  have hc2 := cycle_of_table (by omega) ht1
  obtain ⟨_, _, _, _, f5, _, f7, _, _⟩ :=
    decayTimers_frame { t with opcode := fetch t, sp := t.sp - 1, pc := t.stack (t.sp - 1) }
  exact ⟨_, hc2, f5, f7⟩

/-- Claim C15: for a state with stack pointer sp < 16 whose PC = a ≤ 4094 points
at a word of first-stage index 2 (a 2nnn), with nnn ≤ 4094 and the bytes 00 EE at
address nnn, the first cycle returns with PC = nnn, stack[sp] = a + 2 and stack
pointer sp + 1, and the second cycle returns with PC = a + 2 and stack pointer
sp. -/
theorem cycle_call_then_return (s : Chip8) (hpc : s.pc ≤ 4094) (hsp : s.sp < 16)
    (hcall : (fetch s &&& 0xF000) >>> 12 = 0x2) (hn : opNNN (fetch s) ≤ 4094)
    (h0 : s.memory (opNNN (fetch s)) = 0x00) (h1 : s.memory (opNNN (fetch s) + 1) = 0xEE) :
    ∃ s1 s2, cycle s = .ok s1 ∧ s1.pc = opNNN (fetch s) ∧ s1.stack s.sp = s.pc + 2
      ∧ s1.sp = s.sp + 1
      ∧ cycle s1 = .ok s2 ∧ s2.pc = s.pc + 2 ∧ s2.sp = s.sp := by
  obtain ⟨s1, hc1, e5, e6, e7, e9⟩ := cycle_call s hpc hsp hcall
  obtain ⟨s2, hc2, f5, f7⟩ := cycle_return s1 (by rw [e5]; exact hn) (by rw [e7]; omega)
    (by rw [e9, e5]; exact h0) (by rw [e9, e5]; exact h1)
  have hs : s1.sp - 1 = s.sp := by rw [e7]; omega
  rw [hs] at f5 f7
  exact ⟨s1, s2, hc1, e5, e6, e7, hc2, f5.trans e6, f7⟩

theorem cycle_call_then_return_witness :
    callState.pc ≤ 4094 ∧ callState.sp = 3 ∧ fetch callState = 0x2204
    ∧ callState.memory 0x204 = 0x00 ∧ callState.memory 0x205 = 0xEE
    ∧ ∃ s1 s2, cycle callState = .ok s1 ∧ s1.pc = 0x204 ∧ s1.stack 3 = 0x202 ∧ s1.sp = 4
      ∧ cycle s1 = .ok s2 ∧ s2.pc = 0x202 ∧ s2.sp = 3 := by
  obtain ⟨s1, s2, a, b, c, d, e, f, g⟩ := cycle_call_then_return callState (by decide)
    (by decide) (by decide) (by decide) (by decide) (by decide)
  exact ⟨by decide, rfl, by decide, by decide, by decide, s1, s2, a, b.trans (by decide), c,
    d, e, f, g⟩

/-! ## Skips -/

/-- Claim C18: for every state, exactly one of the handlers 3xkk and
4xkk adds 2 to PC (modulo 2^16, which differs from PC) and the other leaves it;
the same for 5xy0 and 9xy0, and, when Vx ≤ 15, for Ex9E and ExA1, which then both
return; none of the six changes a register, I, the memory, the stack, the stack
pointer or the framebuffer. -/
theorem skip_pairs_complementary (s : Chip8) :
    (s.pc + 2) % 65536 ≠ s.pc
    ∧ oneSkips s (OP_3xkk s) (OP_4xkk s)
    ∧ oneSkips s (OP_5xy0 s) (OP_9xy0 s)
    ∧ sameData s (OP_3xkk s) ∧ sameData s (OP_4xkk s)
    ∧ sameData s (OP_5xy0 s) ∧ sameData s (OP_9xy0 s)
    ∧ (s.registers (opX s.opcode) ≤ 15 →
        ∃ a b, OP_Ex9E s = .ok a ∧ OP_ExA1 s = .ok b ∧ oneSkips s a b
          ∧ sameData s a ∧ sameData s b) := by
  refine ⟨by omega, ?_, ?_, ?_, ?_, ?_, ?_, ?_⟩
  · by_cases h : s.registers (opX s.opcode) = wrap8 (opKK s.opcode)
    · exact Or.inl (by simp [OP_3xkk, OP_4xkk, h, wrap16])
    · exact Or.inr (by simp [OP_3xkk, OP_4xkk, h, wrap16])
  · by_cases h : s.registers (opX s.opcode) = s.registers (opY s.opcode)
    · exact Or.inl (by simp [OP_5xy0, OP_9xy0, h, wrap16])
    · exact Or.inr (by simp [OP_5xy0, OP_9xy0, h, wrap16])
  · simp only [OP_3xkk]; split_ifs <;> exact ⟨rfl, rfl, rfl, rfl, rfl, rfl⟩
  · simp only [OP_4xkk]; split_ifs <;> exact ⟨rfl, rfl, rfl, rfl, rfl, rfl⟩
  · simp only [OP_5xy0]; split_ifs <;> exact ⟨rfl, rfl, rfl, rfl, rfl, rfl⟩
  · simp only [OP_9xy0]; split_ifs <;> exact ⟨rfl, rfl, rfl, rfl, rfl, rfl⟩
  · intro hk
    have hk16 : s.registers (opX s.opcode) < 16 := by omega
    by_cases h : s.keypad (s.registers (opX s.opcode)) = 0
    · refine ⟨s, { s with pc := wrap16 (s.pc + 2) }, ?_, ?_, Or.inr ⟨rfl, rfl⟩,
        ⟨rfl, rfl, rfl, rfl, rfl, rfl⟩, ⟨rfl, rfl, rfl, rfl, rfl, rfl⟩⟩
      · simp [OP_Ex9E, hk16, h]
      · simp [OP_ExA1, hk16, h]
    · refine ⟨{ s with pc := wrap16 (s.pc + 2) }, s, ?_, ?_, Or.inl ⟨rfl, rfl⟩,
        ⟨rfl, rfl, rfl, rfl, rfl, rfl⟩, ⟨rfl, rfl, rfl, rfl, rfl, rfl⟩⟩
      · simp [OP_Ex9E, hk16, h]
      · simp [OP_ExA1, hk16, h]

theorem skip_pairs_complementary_witness :
    skipState.registers (opX skipState.opcode) ≤ 15
    ∧ (OP_3xkk skipState).pc = 0x204 ∧ (OP_4xkk skipState).pc = 0x202
    ∧ (OP_5xy0 skipState).pc = 0x202 ∧ (OP_9xy0 skipState).pc = 0x204
    ∧ oneSkips skipState (OP_3xkk skipState) (OP_4xkk skipState)
    ∧ ∃ a b, OP_Ex9E skipState = .ok a ∧ OP_ExA1 skipState = .ok b ∧ oneSkips skipState a b := by
  have h := skip_pairs_complementary skipState
  obtain ⟨a, b, ha, hb, hab, _⟩ := h.2.2.2.2.2.2.2 (by decide)
  exact ⟨by decide, by decide, by decide, by decide, by decide, h.2.1,
    a, b, ha, hb, hab⟩


/-! ## Sprite bits past the right edge -/

/-- The loop body of Dxyn, run for a set sprite bit at (row, col) with
xPos < 64, col < 8, xPos + col ≥ 64 and yPos + row < 31, returns and toggles
exactly the cell of linear index (yPos + row) * 64 + xPos + col; that index is
below 2048 and is the index of screen position (xPos + col - 64, yPos + row + 1).
`OP_Dxyn` runs this body with xPos = Vx mod 64 and yPos = Vy mod 32. -/
theorem drawPixel_spills_into_next_row (xPos yPos row b col : Nat) (t : Chip8)
    (hbit : wrap8 (b &&& (0x80 >>> col)) ≠ 0) (hx : xPos < 64) (hcol : col < 8)
    (hspill : 64 ≤ xPos + col) (hrow : yPos + row < 31) :
    (yPos + row) * 64 + (xPos + col) = (yPos + row + 1) * 64 + (xPos + col - 64)
    ∧ (yPos + row) * 64 + (xPos + col) < 2048
    ∧ xPos + col - 64 < 64 ∧ yPos + row + 1 < 32
    ∧ ∃ t1, drawPixel xPos yPos row b col t = .ok t1
        ∧ t1.video ((yPos + row + 1) * 64 + (xPos + col - 64))
            = t.video ((yPos + row + 1) * 64 + (xPos + col - 64)) ^^^ 0xFFFFFFFF
        ∧ ∀ j, j ≠ (yPos + row + 1) * 64 + (xPos + col - 64) → t1.video j = t.video j := by
  have he : (yPos + row) * 64 + (xPos + col) = (yPos + row + 1) * 64 + (xPos + col - 64) := by
    omega
  have hlt : (yPos + row) * 64 + (xPos + col) < 2048 := by omega
  refine ⟨he, hlt, by omega, by omega, ?_⟩
  obtain ⟨t1, h1⟩ := drawPixel_total xPos yPos row b col t (fun _ => hlt)
  have d := drawPixel_drawn xPos yPos row b col t t1 h1
  have dv := d.2.2.2.2.2.2.2.2.2.2.2.2
  refine ⟨t1, h1, ?_, ?_⟩
  · rw [dv]
    have hm : pixelMask xPos yPos row b col ((yPos + row + 1) * 64 + (xPos + col - 64))
        = 0xFFFFFFFF := by
      simp only [pixelMask, VIDEO_WIDTH]
      rw [if_pos ⟨hbit, he⟩]
    rw [hm]
  · intro j hj
    rw [dv]
    have hm : pixelMask xPos yPos row b col j = 0 := by
      simp only [pixelMask, VIDEO_WIDTH]
      rw [if_neg]
      rintro ⟨_, e⟩
      exact hj (by omega)
    rw [hm, Nat.xor_zero]

theorem drawPixel_spills_into_next_row_witness :
    wrap8 (0x01 &&& (0x80 >>> 7)) ≠ 0
    ∧ (10 + 2) * 64 + (60 + 7) = (10 + 2 + 1) * 64 + 3
    ∧ ∃ t1, drawPixel 60 10 2 0x01 7 zeroState = .ok t1
      ∧ t1.video (13 * 64 + 3) = 0xFFFFFFFF := by
  obtain ⟨_, _, _, _, t1, h, hv, _⟩ := drawPixel_spills_into_next_row 60 10 2 0x01 7 zeroState
    (by decide) (by decide) (by decide) (by decide) (by decide)
  exact ⟨by decide, by decide, t1, h, hv.trans (by decide)⟩

/-! ## Stack pointer and framebuffer frames -/

theorem skips_sameSpVideo (s : Chip8) :
    sameSpVideo s (OP_3xkk s) ∧ sameSpVideo s (OP_4xkk s) ∧ sameSpVideo s (OP_5xy0 s)
    ∧ sameSpVideo s (OP_9xy0 s) ∧ sameSpVideo s (OP_Fx0A s) := by
  refine ⟨?_, ?_, ?_, ?_, ?_⟩
  · simp only [OP_3xkk]; split_ifs <;> exact ⟨rfl, rfl⟩
  · simp only [OP_4xkk]; split_ifs <;> exact ⟨rfl, rfl⟩
  · simp only [OP_5xy0]; split_ifs <;> exact ⟨rfl, rfl⟩
  · simp only [OP_9xy0]; split_ifs <;> exact ⟨rfl, rfl⟩
  · rcases OP_Fx0A_cases s with ⟨k, _, _, h⟩ | h <;> rw [h] <;> exact ⟨rfl, rfl⟩

theorem fallible_sameSpVideo (s s1 : Chip8) :
    (OP_Ex9E s = .ok s1 → sameSpVideo s s1) ∧ (OP_ExA1 s = .ok s1 → sameSpVideo s s1)
    ∧ (OP_Fx33 s = .ok s1 → sameSpVideo s s1) ∧ (OP_Fx55 s = .ok s1 → sameSpVideo s s1)
    ∧ (OP_Fx65 s = .ok s1 → sameSpVideo s s1) := by
  refine ⟨?_, ?_, ?_, ?_, ?_⟩
  · intro h
    simp only [OP_Ex9E] at h
    split_ifs at h <;> rw [← Except.ok.inj h] <;> exact ⟨rfl, rfl⟩
  · intro h
    simp only [OP_ExA1] at h
    split_ifs at h <;> rw [← Except.ok.inj h] <;> exact ⟨rfl, rfl⟩
  · intro h
    simp only [OP_Fx33] at h
    split_ifs at h
    rw [← Except.ok.inj h]; exact ⟨rfl, rfl⟩
  · intro h
    simp only [OP_Fx55] at h
    refine forLoop_indexed (fun _ u => sameSpVideo s u) _ ?_ _ _ _ _ ?_ h
    · intro i u u1 hP hb
      split_ifs at hb
      rw [← Except.ok.inj hb]; exact hP
    · exact ⟨rfl, rfl⟩
  · intro h
    simp only [OP_Fx65] at h
    refine forLoop_indexed (fun _ u => sameSpVideo s u) _ ?_ _ _ _ _ ?_ h
    · intro i u u1 hP hb
      split_ifs at hb
      rw [← Except.ok.inj hb]; exact hP
    · exact ⟨rfl, rfl⟩

/-- Every instruction other than 00E0, 00EE, 2nnn and Dxyn leaves the stack
pointer and the framebuffer alone. -/
theorem table_sp_video (s s1 : Chip8) (h : table s = .ok s1) :
    sameSpVideo s s1 ∨ s1 = OP_00E0 s ∨ OP_00EE s = .ok s1 ∨ OP_2nnn s = .ok s1
    ∨ OP_Dxyn s = .ok s1 := by
  rcases table_inv s s1 h with
    ⟨_, h⟩ | ⟨_, rfl⟩ | ⟨_, h⟩ | ⟨_, rfl⟩ | ⟨_, rfl⟩ | ⟨_, rfl⟩ | ⟨_, rfl⟩ | ⟨_, rfl⟩ | ⟨_, h⟩
    | ⟨_, rfl⟩ | ⟨_, rfl⟩ | ⟨_, rfl⟩ | ⟨_, rfl⟩ | ⟨_, h⟩ | ⟨_, h⟩ | ⟨_, h⟩
  · rcases Table0_inv s s1 h with ⟨_, rfl⟩ | ⟨_, h⟩ | ⟨_, rfl⟩
    · exact Or.inr (Or.inl rfl)
    · exact Or.inr (Or.inr (Or.inl h))
    · exact Or.inl ⟨rfl, rfl⟩
  · exact Or.inl ⟨rfl, rfl⟩
  · exact Or.inr (Or.inr (Or.inr (Or.inl h)))
  · exact Or.inl (skips_sameSpVideo s).1
  · exact Or.inl (skips_sameSpVideo s).2.1
  · exact Or.inl (skips_sameSpVideo s).2.2.1
  · exact Or.inl ⟨rfl, rfl⟩
  · exact Or.inl ⟨rfl, rfl⟩
  · rcases Table8_inv s s1 h with
      ⟨_, rfl⟩ | ⟨_, rfl⟩ | ⟨_, rfl⟩ | ⟨_, rfl⟩ | ⟨_, rfl⟩ | ⟨_, rfl⟩ | ⟨_, rfl⟩ | ⟨_, rfl⟩
      | ⟨_, rfl⟩ | ⟨_, rfl⟩ <;> exact Or.inl ⟨rfl, rfl⟩
  · exact Or.inl (skips_sameSpVideo s).2.2.2.1
  · exact Or.inl ⟨rfl, rfl⟩
  · exact Or.inl ⟨rfl, rfl⟩
  · exact Or.inl ⟨rfl, rfl⟩
  · exact Or.inr (Or.inr (Or.inr (Or.inr h)))
  · rcases TableE_inv s s1 h with ⟨_, h⟩ | ⟨_, h⟩ | ⟨_, rfl⟩
    · exact Or.inl ((fallible_sameSpVideo s s1).2.1 h)
    · exact Or.inl ((fallible_sameSpVideo s s1).1 h)
    · exact Or.inl ⟨rfl, rfl⟩
  · rcases TableF_inv s s1 h with
      ⟨_, rfl⟩ | ⟨_, rfl⟩ | ⟨_, rfl⟩ | ⟨_, rfl⟩ | ⟨_, rfl⟩ | ⟨_, rfl⟩ | ⟨_, h⟩ | ⟨_, h⟩
      | ⟨_, h⟩ | ⟨_, rfl⟩
    · exact Or.inl ⟨rfl, rfl⟩
    · exact Or.inl (skips_sameSpVideo s).2.2.2.2
    · exact Or.inl ⟨rfl, rfl⟩
    · exact Or.inl ⟨rfl, rfl⟩
    · exact Or.inl ⟨rfl, rfl⟩
    · exact Or.inl ⟨rfl, rfl⟩
    · exact Or.inl ((fallible_sameSpVideo s s1).2.2.1 h)
    · exact Or.inl ((fallible_sameSpVideo s s1).2.2.2.1 h)
    · exact Or.inl ((fallible_sameSpVideo s s1).2.2.2.2 h)
    · exact Or.inl ⟨rfl, rfl⟩

theorem cycle_sp_bound (s s1 : Chip8) (h : cycle s = .ok s1) (hsp : s.sp ≤ 16) :
    s1.sp ≤ 16 := by
  obtain ⟨s2, ht, rfl⟩ := cycle_inv s s1 h
  rw [(decayTimers_frame s2).2.2.2.2.2.2.1]
  rcases table_sp_video _ s2 ht with h1 | h1 | h1 | h1 | h1
  · rw [h1.1]; exact hsp
  · rw [h1]; exact hsp
  · simp only [OP_00EE] at h1
    split_ifs at h1 with hlt
    rw [← Except.ok.inj h1]
    exact Nat.le_of_lt hlt
  · simp only [OP_2nnn] at h1
    split_ifs at h1 with hlt
    rw [← Except.ok.inj h1]
    show wrap8 (s.sp + 1) ≤ 16
    have hlt2 : s.sp < 16 := hlt
    unfold wrap8; omega
  · have d := OP_Dxyn_drawn _ s2 h1
    rw [d.2.2.2.2.1]; exact hsp

theorem runCycles_sp_bound (n : Nat) (s s1 : Chip8) (h : runCycles n s = .ok s1)
    (hsp : s.sp ≤ 16) : s1.sp ≤ 16 := by
  induction n generalizing s with
  | zero =>
    simp only [runCycles, Except.ok.injEq] at h
    rw [← h]; exact hsp
  | succ n ih =>
    simp only [runCycles] at h
    cases hc : cycle s with
    | error e => rw [hc] at h; simp at h
    | ok s2 =>
      rw [hc] at h
      exact ih s2 h (cycle_sp_bound s s2 hc hsp)

/-- Claim C13 as stated fails: the code has no stack guard.  From the constructed
state with the ROM `00 EE`, the first cycle runs 00EE with stack pointer 0, which
takes the pointer to 255 and reads outside the stack; with the ROM `22 00` (call
0x200) sixteen cycles return with stack pointer 16 and the seventeenth runs 2nnn
with the pointer at 16, a write to stack[16]. -/
theorem stack_pointer_unchecked :
    (∃ u0, load_rom [0x00, 0xEE] (Chip8_ctor (fun _ => 0) 0 0 (fun _ => 0)) = .ok u0
        ∧ u0.sp = 0 ∧ fetch u0 = 0x00EE ∧ sub8 u0.sp 1 = 255
        ∧ cycle u0 = .error .stackBounds)
    ∧ (∃ c0 c16, load_rom [0x22, 0x00] (Chip8_ctor (fun _ => 0) 0 0 (fun _ => 0)) = .ok c0
        ∧ runCycles 16 c0 = .ok c16 ∧ c16.sp = 16 ∧ fetch c16 = 0x2200
        ∧ cycle c16 = .error .stackBounds
        ∧ runCycles 17 c0 = .error .stackBounds) :=
  ⟨⟨_, rfl, by decide, by decide, by decide, rfl⟩,
   ⟨_, _, rfl, rfl, by decide, by decide, rfl, rfl⟩⟩

/-- Claim C13, amended: from the constructed state with any ROM loaded, every
state reached by cycles that all return (none accesses outside an array) has its
stack pointer within 0..16. -/
theorem stack_pointer_within_bounds (rom : List Nat) (keypad0 : Nat → Nat) (d0 t0 : Nat)
    (rg : Nat → Nat) (s0 : Chip8)
    (hload : load_rom rom (Chip8_ctor keypad0 d0 t0 rg) = .ok s0)
    (n : Nat) (s : Chip8) (hrun : runCycles n s0 = .ok s) : s.sp ≤ 16 := by
  have h0 : s0.sp = 0 := by
    simp only [load_rom] at hload
    split_ifs at hload
    rw [← Except.ok.inj hload]
    rfl
  exact runCycles_sp_bound n s0 s hrun (by omega)

theorem stack_pointer_within_bounds_witness :
    ∃ c0 c16, load_rom [0x22, 0x00] (Chip8_ctor (fun _ => 0) 0 0 (fun _ => 0)) = .ok c0
      ∧ runCycles 16 c0 = .ok c16 ∧ c16.sp = 16 ∧ c16.sp ≤ 16 :=
  ⟨_, _, rfl, rfl, by decide,
    stack_pointer_within_bounds [0x22, 0x00] (fun _ => 0) 0 0 (fun _ => 0) _ rfl 16 _ rfl⟩

/-! ## Framebuffer cells -/

theorem cellBinary_xor {v m : Nat} (hv : cellBinary v) (hm : cellBinary m) :
    cellBinary (v ^^^ m) := by
  rcases hv with rfl | rfl <;> rcases hm with rfl | rfl <;> unfold cellBinary <;> decide

theorem pixelMask_binary (xPos yPos row b col j : Nat) :
    cellBinary (pixelMask xPos yPos row b col j) := by
  unfold pixelMask
  split
  · exact Or.inr rfl
  · exact Or.inl rfl

theorem colsMask_binary (xPos yPos row b n j : Nat) :
    cellBinary (colsMask xPos yPos row b n j) := by
  induction n with
  | zero => exact Or.inl rfl
  | succ n ih => exact cellBinary_xor ih (pixelMask_binary xPos yPos row b n j)

theorem rowsMask_binary (xPos yPos : Nat) (mem : Nat → Nat) (idx n j : Nat) :
    cellBinary (rowsMask xPos yPos mem idx n j) := by
  induction n with
  | zero => exact Or.inl rfl
  | succ n ih => exact cellBinary_xor ih (colsMask_binary xPos yPos n (mem (idx + n)) 8 j)

/-- Claim C14: if every one of the 2048 framebuffer cells is 0 or 0xFFFFFFFF
before a cycle that returns (so every cell it touches is inside the
framebuffer), every one of them is 0 or 0xFFFFFFFF after it, whatever word was
fetched. -/
theorem cycle_keeps_cells_binary (s s1 : Chip8) (h : cycle s = .ok s1)
    (hv : ∀ i, i < 2048 → cellBinary (s.video i)) :
    ∀ i, i < 2048 → cellBinary (s1.video i) := by
  obtain ⟨s2, ht, rfl⟩ := cycle_inv s s1 h
  intro i hi
  rw [(decayTimers_frame s2).2.1]
  rcases table_sp_video _ s2 ht with h1 | h1 | h1 | h1 | h1
  · rw [h1.2]; exact hv i hi
  · rw [h1]
    have hi2 : i < VIDEO_WIDTH * VIDEO_HEIGHT := hi
    simp only [OP_00E0, hi2, if_true]
    exact Or.inl rfl
  · simp only [OP_00EE] at h1
    split_ifs at h1
    rw [← Except.ok.inj h1]
    exact hv i hi
  · simp only [OP_2nnn] at h1
    split_ifs at h1
    rw [← Except.ok.inj h1]
    exact hv i hi
  · have d := OP_Dxyn_drawn _ s2 h1
    rw [d.2.2.2.2.2.2.2.2.2.2.2.2 i]
    exact cellBinary_xor (hv i hi) (rowsMask_binary _ _ _ _ _ _)

theorem cycle_keeps_cells_binary_witness :
    (∀ i, i < 2048 → cellBinary (drawCycleState.video i))
    ∧ fetch drawCycleState = 0xD011
    ∧ ∃ s1, cycle drawCycleState = .ok s1 ∧ s1.video 0 = 0xFFFFFFFF ∧ s1.video 1 = 0
      ∧ ∀ i, i < 2048 → cellBinary (s1.video i) := by
  have hv : ∀ i, i < 2048 → cellBinary (drawCycleState.video i) := by
    intro i _
    by_cases h : i = 1
    · exact Or.inr (by rw [h]; rfl)
    · exact Or.inl (by simp [drawCycleState, setAt, h])
  obtain ⟨s1, h1⟩ : ∃ s1, cycle drawCycleState = .ok s1 := ⟨_, rfl⟩
  have a0 : (match cycle drawCycleState with
      | .ok t => t.video 0 | .error _ => 1) = 0xFFFFFFFF := by decide
  have a1 : (match cycle drawCycleState with
      | .ok t => t.video 1 | .error _ => 1) = 0 := by decide
  rw [h1] at a0 a1
  exact ⟨hv, by decide, s1, h1, a0, a1, cycle_keeps_cells_binary drawCycleState s1 h1 hv⟩

/-! ## Sprite semantics -/

theorem bitSet_iff_testBit (b col : Nat) (hcol : col < 8) :
    bitSet b col ↔ b.testBit (7 - col) = true := by
  have hp : 0x80 >>> col = 2 ^ (7 - col) := by interval_cases col <;> rfl
  have hk : 7 - col ≤ 7 := by omega
  unfold bitSet
  rw [hp]
  generalize 7 - col = k at hk
  have hle : b &&& 2 ^ k ≤ 2 ^ k := Nat.and_le_right
  have h128 : 2 ^ k ≤ 2 ^ 7 := Nat.pow_le_pow_right (by decide) hk
  have hw : wrap8 (b &&& 2 ^ k) = b &&& 2 ^ k := by
    unfold wrap8
    exact Nat.mod_eq_of_lt (by omega)
  rw [hw]
  constructor
  · intro hne
    by_contra hf
    apply hne
    apply Nat.eq_of_testBit_eq
    intro i
    rw [Nat.testBit_and, Nat.zero_testBit, Nat.testBit_two_pow]
    by_cases hki : k = i
    · rw [← hki]
      simp [hf]
    · simp [hki]
  · intro ht hz
    have h1 : (b &&& 2 ^ k).testBit k = true := by
      rw [Nat.testBit_and, ht, Nat.testBit_two_pow_self]
      rfl
    rw [hz, Nat.zero_testBit] at h1
    exact Bool.false_ne_true h1

theorem pixelMask_eq (xPos yPos row b col j : Nat) :
    pixelMask xPos yPos row b col j
      = if bitSet b col ∧ cellOf xPos yPos row col = j then 0xFFFFFFFF else 0 := rfl

theorem colsMask_miss (xPos yPos row b n j : Nat)
    (h : ∀ c, c < n → bitSet b c → cellOf xPos yPos row c ≠ j) :
    colsMask xPos yPos row b n j = 0 := by
  induction n with
  | zero => rfl
  | succ n ih =>
    have h1 := ih (fun c hc => h c (by omega))
    have h2 : pixelMask xPos yPos row b n j = 0 := by
      rw [pixelMask_eq, if_neg]
      rintro ⟨hb, he⟩
      exact h n (by omega) hb he
    simp only [colsMask, h1, h2]
    rfl

theorem colsMask_hit (xPos yPos row b n c : Nat) (hc : c < n) (hb : bitSet b c) :
    colsMask xPos yPos row b n (cellOf xPos yPos row c) = 0xFFFFFFFF := by
  induction n with
  | zero => omega
  | succ n ih =>
    by_cases hcn : c = n
    · have h1 : colsMask xPos yPos row b n (cellOf xPos yPos row c) = 0 := by
        apply colsMask_miss
        intro c1 hc1 _
        unfold cellOf; omega
      have h2 : pixelMask xPos yPos row b n (cellOf xPos yPos row c) = 0xFFFFFFFF := by
        rw [pixelMask_eq, if_pos]
        rw [← hcn]
        exact ⟨hb, rfl⟩
      simp only [colsMask, h1, h2]
      rfl
    · have h1 := ih (by omega)
      have h2 : pixelMask xPos yPos row b n (cellOf xPos yPos row c) = 0 := by
        rw [pixelMask_eq, if_neg]
        rintro ⟨_, he⟩
        unfold cellOf at he
        omega
      simp only [colsMask, h1, h2]
      rfl

theorem rowsMask_miss (xPos yPos : Nat) (mem : Nat → Nat) (idx n j : Nat)
    (h : ∀ r c, r < n → c < 8 → bitSet (mem (idx + r)) c → cellOf xPos yPos r c ≠ j) :
    rowsMask xPos yPos mem idx n j = 0 := by
  induction n with
  | zero => rfl
  | succ n ih =>
    have h1 := ih (fun r c hr => h r c (by omega))
    have h2 : colsMask xPos yPos n (mem (idx + n)) 8 j = 0 :=
      colsMask_miss _ _ _ _ _ _ (fun c hc hb => h n c (by omega) hc hb)
    simp only [rowsMask, h1, h2]
    rfl

theorem rowsMask_hit (xPos yPos : Nat) (mem : Nat → Nat) (idx n r c : Nat)
    (hr : r < n) (hc : c < 8) (hb : bitSet (mem (idx + r)) c) :
    rowsMask xPos yPos mem idx n (cellOf xPos yPos r c) = 0xFFFFFFFF := by
  induction n with
  | zero => omega
  | succ n ih =>
    by_cases hrn : r = n
    · have h1 : rowsMask xPos yPos mem idx n (cellOf xPos yPos r c) = 0 := by
        apply rowsMask_miss
        intro r1 c1 hr1 hc1 _
        unfold cellOf; omega
      have h2 : colsMask xPos yPos n (mem (idx + n)) 8 (cellOf xPos yPos r c) = 0xFFFFFFFF := by
        rw [hrn] at hb ⊢
        exact colsMask_hit _ _ _ _ _ _ hc hb
      simp only [rowsMask, h1, h2]
      rfl
    · have h1 := ih (by omega)
      have h2 : colsMask xPos yPos n (mem (idx + n)) 8 (cellOf xPos yPos r c) = 0 := by
        apply colsMask_miss
        intro c1 hc1 _
        unfold cellOf; omega
      simp only [rowsMask, h1, h2]
      rfl

theorem drawPixel_VF (xPos yPos row b col : Nat) (t t1 : Chip8)
    (h : drawPixel xPos yPos row b col t = .ok t1) :
    (bitSet b col ∧ t.video (cellOf xPos yPos row col) = 0xFFFFFFFF → t1.registers 0xF = 1)
    ∧ (¬ (bitSet b col ∧ t.video (cellOf xPos yPos row col) = 0xFFFFFFFF) →
        t1.registers 0xF = t.registers 0xF) := by
  simp only [drawPixel] at h
  by_cases hbit : wrap8 (b &&& (0x80 >>> col)) ≠ 0
  · rw [if_pos hbit] at h
    by_cases hcell : (yPos + row) * VIDEO_WIDTH + (xPos + col) < VIDEO_WIDTH * VIDEO_HEIGHT
    · rw [if_pos hcell] at h
      rw [← Except.ok.inj h]
      by_cases hlit : t.video ((yPos + row) * VIDEO_WIDTH + (xPos + col)) = 0xFFFFFFFF
      · refine ⟨fun _ => ?_, fun hn => absurd ⟨hbit, hlit⟩ hn⟩
        simp only [hlit, if_true, setAt_same]
      · refine ⟨fun hh => absurd hh.2 hlit, fun _ => ?_⟩
        simp only [hlit, if_false]
    · rw [if_neg hcell] at h
      exact absurd h (by simp)
  · rw [if_neg hbit] at h
    rw [← Except.ok.inj h]
    exact ⟨fun hh => absurd hh.1 hbit, fun _ => rfl⟩

theorem colsHit_succ (video0 : Nat → Nat) (xPos yPos row b n : Nat) :
    colsHit video0 xPos yPos row b (n + 1)
      ↔ colsHit video0 xPos yPos row b n
        ∨ (bitSet b n ∧ video0 (cellOf xPos yPos row n) = 0xFFFFFFFF) := by
  constructor
  · rintro ⟨c, hc, hb, hv⟩
    by_cases hcn : c = n
    · rw [hcn] at hb hv
      exact Or.inr ⟨hb, hv⟩
    · exact Or.inl ⟨c, by omega, hb, hv⟩
  · rintro (⟨c, hc, hb, hv⟩ | ⟨hb, hv⟩)
    · exact ⟨c, by omega, hb, hv⟩
    · exact ⟨n, by omega, hb, hv⟩

theorem colsInv_step (t0 : Chip8) (xPos yPos row b n : Nat) (t t1 : Chip8)
    (hP : colsInv t0 xPos yPos row b n t)
    (h : drawPixel xPos yPos row b n t = .ok t1) :
    colsInv t0 xPos yPos row b (n + 1) t1 := by
  obtain ⟨hd, hhit, hmiss⟩ := hP
  have hvid : t.video (cellOf xPos yPos row n) = t0.video (cellOf xPos yPos row n) := by
    rw [hd.2.2.2.2.2.2.2.2.2.2.2.2, colsMask_miss, Nat.xor_zero]
    intro c hc _
    unfold cellOf; omega
  obtain ⟨v1, v2⟩ := drawPixel_VF xPos yPos row b n t t1 h
  rw [hvid] at v1 v2
  refine ⟨drawnFrom_step hd (drawPixel_drawn xPos yPos row b n t t1 h) (fun _ => rfl), ?_, ?_⟩
  · intro hh
    by_cases hnow : bitSet b n ∧ t0.video (cellOf xPos yPos row n) = 0xFFFFFFFF
    · exact v1 hnow
    · rw [v2 hnow]
      rcases (colsHit_succ _ _ _ _ _ _).mp hh with h1 | h1
      · exact hhit h1
      · exact absurd h1 hnow
  · intro hh
    have hn1 : ¬ colsHit t0.video xPos yPos row b n :=
      fun h1 => hh ((colsHit_succ _ _ _ _ _ _).mpr (Or.inl h1))
    have hn2 : ¬ (bitSet b n ∧ t0.video (cellOf xPos yPos row n) = 0xFFFFFFFF) :=
      fun h1 => hh ((colsHit_succ _ _ _ _ _ _).mpr (Or.inr h1))
    rw [v2 hn2]
    exact hmiss hn1

theorem colsInv_start (t0 : Chip8) (xPos yPos row b : Nat) :
    colsInv t0 xPos yPos row b 0 t0 := by
  refine ⟨drawnFrom_start t0 _ (fun _ => rfl), ?_, fun _ => rfl⟩
  rintro ⟨c, hc, _⟩
  omega

theorem drawRow_colsInv (xPos yPos row : Nat) (t t1 : Chip8)
    (h : drawRow xPos yPos row t = .ok t1) :
    colsInv t xPos yPos row (t.memory (t.index + row)) 8 t1 := by
  simp only [drawRow] at h
  split_ifs at h
  have key := forLoop_indexed
    (fun c u => colsInv t xPos yPos row (t.memory (t.index + row)) c u)
    (drawPixel xPos yPos row (t.memory (t.index + row)))
    (fun c u u1 hP hb => colsInv_step t xPos yPos row _ c u u1 hP hb)
    8 0 t t1 (colsInv_start t xPos yPos row _) h
  exact key

theorem rowsHit_succ (video0 : Nat → Nat) (xPos yPos : Nat) (mem : Nat → Nat) (idx n : Nat) :
    rowsHit video0 xPos yPos mem idx (n + 1)
      ↔ rowsHit video0 xPos yPos mem idx n ∨ colsHit video0 xPos yPos n (mem (idx + n)) 8 := by
  constructor
  · rintro ⟨r, hr, hc⟩
    by_cases hrn : r = n
    · rw [hrn] at hc
      exact Or.inr hc
    · exact Or.inl ⟨r, by omega, hc⟩
  · rintro (⟨r, hr, hc⟩ | hc)
    · exact ⟨r, by omega, hc⟩
    · exact ⟨n, by omega, hc⟩

theorem rowsInv_step (s0 : Chip8) (xPos yPos n : Nat) (t t1 : Chip8)
    (hP : rowsInv s0 xPos yPos n t) (h : drawRow xPos yPos n t = .ok t1) :
    rowsInv s0 xPos yPos (n + 1) t1 := by
  obtain ⟨hd, hhit, hmiss⟩ := hP
  obtain ⟨cd, chit, cmiss⟩ := drawRow_colsInv xPos yPos n t t1 h
  have hbyte : t.memory (t.index + n) = s0.memory (s0.index + n) := by
    rw [hd.2.1, hd.2.2.2.2.2.2.1]
  rw [hbyte] at cd chit cmiss
  have hsame : colsHit t.video xPos yPos n (s0.memory (s0.index + n)) 8
      ↔ colsHit s0.video xPos yPos n (s0.memory (s0.index + n)) 8 := by
    have hv : ∀ c, c < 8 → t.video (cellOf xPos yPos n c) = s0.video (cellOf xPos yPos n c) := by
      intro c hc
      rw [hd.2.2.2.2.2.2.2.2.2.2.2.2, rowsMask_miss, Nat.xor_zero]
      intro r c1 hr hc1 _
      unfold cellOf; omega
    constructor
    · rintro ⟨c, hc, hb, hl⟩
      exact ⟨c, hc, hb, by rw [← hv c hc]; exact hl⟩
    · rintro ⟨c, hc, hb, hl⟩
      exact ⟨c, hc, hb, by rw [hv c hc]; exact hl⟩
  refine ⟨drawnFrom_step hd cd (fun _ => rfl), ?_, ?_⟩
  · intro hh
    by_cases hnow : colsHit t.video xPos yPos n (s0.memory (s0.index + n)) 8
    · exact chit hnow
    · rw [cmiss hnow]
      rcases (rowsHit_succ _ _ _ _ _ _).mp hh with h1 | h1
      · exact hhit h1
      · exact absurd (hsame.mpr h1) hnow
  · intro hh
    have hn1 : ¬ rowsHit s0.video xPos yPos s0.memory s0.index n :=
      fun h1 => hh ((rowsHit_succ _ _ _ _ _ _).mpr (Or.inl h1))
    have hn2 : ¬ colsHit t.video xPos yPos n (s0.memory (s0.index + n)) 8 :=
      fun h1 => hh ((rowsHit_succ _ _ _ _ _ _).mpr (Or.inr (hsame.mp h1)))
    rw [cmiss hn2]
    exact hmiss hn1

theorem OP_Dxyn_rowsInv (s s1 : Chip8) (h : OP_Dxyn s = .ok s1) :
    rowsInv { s with registers := setAt s.registers 0xF 0 }
      (s.registers (opX s.opcode) % 64) (s.registers (opY s.opcode) % 32) (opN s.opcode) s1 := by
  rw [OP_Dxyn_eq] at h
  have key := forLoop_indexed
    (fun r u => rowsInv { s with registers := setAt s.registers 0xF 0 }
      (s.registers (opX s.opcode) % 64) (s.registers (opY s.opcode) % 32) r u)
    (drawRow (s.registers (opX s.opcode) % 64) (s.registers (opY s.opcode) % 32))
    (fun r u u1 hP hb => rowsInv_step _ _ _ r u u1 hP hb)
    (opN s.opcode) 0 { s with registers := setAt s.registers 0xF 0 } s1
    ⟨drawnFrom_start _ _ (fun _ => rfl), by rintro ⟨r, hr, _⟩; omega, fun _ => rfl⟩ h
  rw [Nat.zero_add] at key
  exact key

/-- Claim C16: for a Dxyn whose anchor (xPos, yPos) = (Vx mod 64, Vy mod 32) has
xPos + 8 ≤ 64, yPos + n ≤ 32 and I + n ≤ 4096, the handler returns; the cell at
(xPos + col, yPos + row), row < n, col < 8, is XOR-ed with 0xFFFFFFFF exactly when
bit 7 - col of memory[I + row] is 1; every other cell is unchanged; and VF is 1
if some cell toggled this way held 0xFFFFFFFF before the draw and 0 otherwise. -/
theorem OP_Dxyn_sprite_semantics (s : Chip8)
    (hx : s.registers (opX s.opcode) % 64 + 8 ≤ 64)
    (hy : s.registers (opY s.opcode) % 32 + opN s.opcode ≤ 32)
    (hI : s.index + opN s.opcode ≤ 4096) :
    ∃ s1, OP_Dxyn s = .ok s1
      ∧ (∀ row col, row < opN s.opcode → col < 8 →
          (s.memory (s.index + row)).testBit (7 - col) = true →
          s1.video ((s.registers (opY s.opcode) % 32 + row) * 64
              + (s.registers (opX s.opcode) % 64 + col))
            = s.video ((s.registers (opY s.opcode) % 32 + row) * 64
              + (s.registers (opX s.opcode) % 64 + col)) ^^^ 0xFFFFFFFF)
      ∧ (∀ row col, row < opN s.opcode → col < 8 →
          (s.memory (s.index + row)).testBit (7 - col) = false →
          s1.video ((s.registers (opY s.opcode) % 32 + row) * 64
              + (s.registers (opX s.opcode) % 64 + col))
            = s.video ((s.registers (opY s.opcode) % 32 + row) * 64
              + (s.registers (opX s.opcode) % 64 + col)))
      ∧ (∀ j, (∀ row col, row < opN s.opcode → col < 8 →
            j ≠ (s.registers (opY s.opcode) % 32 + row) * 64
              + (s.registers (opX s.opcode) % 64 + col)) →
          s1.video j = s.video j)
      ∧ ((∃ row col, row < opN s.opcode ∧ col < 8
            ∧ (s.memory (s.index + row)).testBit (7 - col) = true
            ∧ s.video ((s.registers (opY s.opcode) % 32 + row) * 64
              + (s.registers (opX s.opcode) % 64 + col)) = 0xFFFFFFFF) →
          s1.registers 0xF = 1)
      ∧ ((¬ ∃ row col, row < opN s.opcode ∧ col < 8
            ∧ (s.memory (s.index + row)).testBit (7 - col) = true
            ∧ s.video ((s.registers (opY s.opcode) % 32 + row) * 64
              + (s.registers (opX s.opcode) % 64 + col)) = 0xFFFFFFFF) →
          s1.registers 0xF = 0) := by
  obtain ⟨s1, h1⟩ := drawRows_total (s.registers (opX s.opcode) % 64)
    (s.registers (opY s.opcode) % 32) (opN s.opcode)
    { s with registers := setAt s.registers 0xF 0 }
    (by intro row hrow; show s.index + row < 4096; omega)
    (by intro row col hrow hcol _; omega)
  rw [← OP_Dxyn_eq] at h1
  obtain ⟨hd, hhit, hmiss⟩ := OP_Dxyn_rowsInv s s1 h1
  have hvid := hd.2.2.2.2.2.2.2.2.2.2.2.2
  refine ⟨s1, h1, ?_, ?_, ?_, ?_, ?_⟩
  · intro row col hrow hcol hbit
    have hb : bitSet (s.memory (s.index + row)) col := (bitSet_iff_testBit _ _ hcol).mpr hbit
    have hm := rowsMask_hit (s.registers (opX s.opcode) % 64) (s.registers (opY s.opcode) % 32)
      s.memory s.index (opN s.opcode) row col hrow hcol hb
    have hv := hvid (cellOf (s.registers (opX s.opcode) % 64)
      (s.registers (opY s.opcode) % 32) row col)
    rw [hm] at hv
    exact hv
  · intro row col hrow hcol hbit
    have hm := rowsMask_miss (s.registers (opX s.opcode) % 64) (s.registers (opY s.opcode) % 32)
      s.memory s.index (opN s.opcode)
      (cellOf (s.registers (opX s.opcode) % 64) (s.registers (opY s.opcode) % 32) row col)
      (by
        intro r c hr hc hb he
        have hrc : r = row ∧ c = col := by
          unfold cellOf at he
          omega
        rw [hrc.1, hrc.2] at hb
        have ht := (bitSet_iff_testBit _ _ hcol).mp hb
        rw [hbit] at ht
        exact Bool.false_ne_true ht)
    have hv := hvid (cellOf (s.registers (opX s.opcode) % 64)
      (s.registers (opY s.opcode) % 32) row col)
    rw [hm, Nat.xor_zero] at hv
    exact hv
  · intro j hj
    have hm := rowsMask_miss (s.registers (opX s.opcode) % 64) (s.registers (opY s.opcode) % 32)
      s.memory s.index (opN s.opcode) j
      (fun r c hr hc _ he => hj r c hr hc he.symm)
    have hv := hvid j
    rw [hm, Nat.xor_zero] at hv
    exact hv
  · rintro ⟨row, col, hrow, hcol, hbit, hlit⟩
    exact hhit ⟨row, hrow, col, hcol, (bitSet_iff_testBit _ _ hcol).mpr hbit, hlit⟩
  · intro hnone
    have h0 := hmiss (by
      rintro ⟨row, hrow, col, hcol, hb, hlit⟩
      exact hnone ⟨row, col, hrow, hcol, (bitSet_iff_testBit _ _ hcol).mp hb, hlit⟩)
    rw [h0]
    show setAt s.registers 0xF 0 0xF = 0
    exact setAt_same _ _ _


theorem OP_Dxyn_sprite_semantics_witness :
    spriteState.registers (opX spriteState.opcode) % 64 + 8 ≤ 64
    ∧ spriteState.registers (opY spriteState.opcode) % 32 + opN spriteState.opcode ≤ 32
    ∧ spriteState.index + opN spriteState.opcode ≤ 4096
    ∧ spriteState.registers 0xF = 7 ∧ spriteState.video (4 * 64 + 3) = 0xFFFFFFFF
    ∧ ∃ s1, OP_Dxyn spriteState = .ok s1 ∧ s1.registers 0xF = 1
      ∧ s1.video (4 * 64 + 3) = 0 ∧ s1.video (5 * 64 + 6) = 0xFFFFFFFF
      ∧ s1.video (5 * 64 + 5) = 0 ∧ s1.video 0 = 0 := by
  obtain ⟨s1, h1, hset, hclear, hother, hvf1, _⟩ := OP_Dxyn_sprite_semantics spriteState
    (by decide) (by decide) (by decide)
  have ex : spriteState.registers (opX spriteState.opcode) % 64 = 3 := by decide
  have ey : spriteState.registers (opY spriteState.opcode) % 32 = 4 := by decide
  have en : opN spriteState.opcode = 2 := by decide
  rw [ex, ey, en] at hset hclear hother hvf1
  have a := hset 0 0 (by decide) (by decide) (by decide)
  have b := hset 1 3 (by decide) (by decide) (by decide)
  have c := hclear 1 2 (by decide) (by decide) (by decide)
  have d := hother 0 (by intro row col hr hc; omega)
  have e := hvf1 ⟨0, 0, by decide, by decide, by decide, by decide⟩
  exact ⟨by decide, by decide, by decide, by decide, by decide, s1, h1, e,
    a.trans (by decide), b.trans (by decide), c.trans (by decide), d.trans (by decide)⟩

/-! ## Timer decay outside the arrays -/

/-- Claim C9 as stated fails: from the constructed state with both timers at 5
and the ROM `AF FE F2 33`, the first cycle (Annn) returns with I = 4094 and delay
timer 4; the next fetched word is F233, neither Fx15 nor Fx18, and its store to
memory[I + 2] = memory[4096] lies outside the memory, so that cycle yields no
state with delay timer 3. -/
theorem timer_decay_needs_in_range_access :
    ∃ r0 r1, load_rom [0xAF, 0xFE, 0xF2, 0x33] (Chip8_ctor (fun _ => 0) 5 5 (fun _ => 0)) = .ok r0
      ∧ cycle r0 = .ok r1 ∧ r1.index = 4094 ∧ r1.delayTimer = 4 ∧ r1.soundTimer = 4
      ∧ fetch r1 = 0xF233 ∧ ¬ isTimerWrite (fetch r1)
      ∧ cycle r1 = .error .memoryBounds
      ∧ ¬ ∃ r2, cycle r1 = .ok r2 ∧ r2.delayTimer = 3 :=
  ⟨_, _, rfl, rfl, by decide, by decide, by decide, by decide, by decide, rfl,
    fun ⟨_, h, _⟩ => by cases h⟩

/-! ## Sprite bits past the right edge, whole handler -/

/-- Claim C20: for a Dxyn with anchor (xPos, yPos) = (Vx mod 64, Vy mod 32) and a
set sprite bit at (row, col), row < n, col < 8, with xPos + col ≥ 64 and
yPos + row < 31: the linear index (yPos + row) * 64 + xPos + col is below 2048 and
is the index of screen position (xPos + col - 64, yPos + row + 1); every draw
that returns leaves that cell XOR-ed with 0xFFFFFFFF; and the draw does
return when every sprite byte lies in memory and every touched cell is below
2048. -/
theorem OP_Dxyn_spills_into_next_row (s : Chip8) (row col : Nat)
    (hrow : row < opN s.opcode) (hcol : col < 8)
    (hbit : (s.memory (s.index + row)).testBit (7 - col) = true)
    (hspill : 64 ≤ s.registers (opX s.opcode) % 64 + col)
    (hy : s.registers (opY s.opcode) % 32 + row < 31) :
    (s.registers (opY s.opcode) % 32 + row) * 64 + (s.registers (opX s.opcode) % 64 + col)
      = (s.registers (opY s.opcode) % 32 + row + 1) * 64
        + (s.registers (opX s.opcode) % 64 + col - 64)
    ∧ (s.registers (opY s.opcode) % 32 + row) * 64
        + (s.registers (opX s.opcode) % 64 + col) < 2048
    ∧ s.registers (opX s.opcode) % 64 + col - 64 < 64
    ∧ s.registers (opY s.opcode) % 32 + row + 1 < 32
    ∧ (∀ s1, OP_Dxyn s = .ok s1 →
        s1.video ((s.registers (opY s.opcode) % 32 + row + 1) * 64
            + (s.registers (opX s.opcode) % 64 + col - 64))
          = s.video ((s.registers (opY s.opcode) % 32 + row + 1) * 64
            + (s.registers (opX s.opcode) % 64 + col - 64)) ^^^ 0xFFFFFFFF)
    ∧ ((∀ r, r < opN s.opcode → s.index + r < 4096) →
        (∀ r c, r < opN s.opcode → c < 8 →
          wrap8 (s.memory (s.index + r) &&& (0x80 >>> c)) ≠ 0 →
          (s.registers (opY s.opcode) % 32 + r) * 64
            + (s.registers (opX s.opcode) % 64 + c) < 2048) →
        ∃ s1, OP_Dxyn s = .ok s1) := by
  have hx : s.registers (opX s.opcode) % 64 < 64 := Nat.mod_lt _ (by decide)
  have he : (s.registers (opY s.opcode) % 32 + row) * 64
      + (s.registers (opX s.opcode) % 64 + col)
      = (s.registers (opY s.opcode) % 32 + row + 1) * 64
        + (s.registers (opX s.opcode) % 64 + col - 64) := by omega
  refine ⟨he, by omega, by omega, by omega, ?_, ?_⟩
  · intro s1 h1
    have d := OP_Dxyn_drawn s s1 h1
    have hb : bitSet (s.memory (s.index + row)) col := (bitSet_iff_testBit _ _ hcol).mpr hbit
    have hm := rowsMask_hit (s.registers (opX s.opcode) % 64) (s.registers (opY s.opcode) % 32)
      s.memory s.index (opN s.opcode) row col hrow hcol hb
    have hv := d.2.2.2.2.2.2.2.2.2.2.2.2 (cellOf (s.registers (opX s.opcode) % 64)
      (s.registers (opY s.opcode) % 32) row col)
    rw [hm] at hv
    have hc : cellOf (s.registers (opX s.opcode) % 64) (s.registers (opY s.opcode) % 32) row col
        = (s.registers (opY s.opcode) % 32 + row + 1) * 64
          + (s.registers (opX s.opcode) % 64 + col - 64) := he
    rw [hc] at hv
    exact hv
  · intro hmem hcell
    obtain ⟨s1, h1⟩ := drawRows_total (s.registers (opX s.opcode) % 64)
      (s.registers (opY s.opcode) % 32) (opN s.opcode)
      { s with registers := setAt s.registers 0xF 0 } hmem hcell
    rw [← OP_Dxyn_eq] at h1
    exact ⟨s1, h1⟩

theorem OP_Dxyn_spills_into_next_row_witness :
    opN spillState.opcode = 1
    ∧ (spillState.memory (spillState.index + 0)).testBit (7 - 7) = true
    ∧ 64 ≤ spillState.registers (opX spillState.opcode) % 64 + 7
    ∧ spillState.registers (opY spillState.opcode) % 32 + 0 < 31
    ∧ spillState.video (11 * 64 + 3) = 0
    ∧ ∃ s1, OP_Dxyn spillState = .ok s1 ∧ s1.video (11 * 64 + 3) = 0xFFFFFFFF := by
  have ex : spillState.registers (opX spillState.opcode) % 64 = 60 := by decide
  have ey : spillState.registers (opY spillState.opcode) % 32 = 10 := by decide
  have en : opN spillState.opcode = 1 := by decide
  obtain ⟨_, _, _, _, htog, hret⟩ := OP_Dxyn_spills_into_next_row spillState 0 7
    (by decide) (by decide) (by decide) (by decide) (by decide)
  obtain ⟨s1, h1⟩ := hret
    (by intro r hr; rw [en] at hr; show 0x300 + r < 4096; omega)
    (by intro r c hr hc _; rw [en] at hr; rw [ex, ey]; omega)
  have hv := htog s1 h1
  rw [ex, ey] at hv
  exact ⟨en, by decide, by decide, by decide, by decide, s1, h1, hv.trans (by decide)⟩

end Chip8Emu
